import Mathlib

set_option maxHeartbeats 1000000
set_option maxRecDepth 8000

namespace Amai

/-! Shallow embedding of the amai-voice-audit-v2 interview/normalization engine.

The JavaScript runtime values flowing through the pipeline (raw tool-call answers,
the untrusted AI candidate, payload entries) are modelled by `JValue`; a JS object
holding such values is a total map `String → Option JValue` (`none` = the key is
absent or carries `undefined`).  Numbers are modelled by `Int`: no claim exercises
non-integer numerics.  Unicode normalization (NFD + combining-mark stripping) is
modelled character-wise on the precomposed characters that occur in the catalogue
and in French input; characters outside the modelled repertoire behave as
separators, exactly like every other non-alphanumeric character. -/

inductive JValue where
  | vNull
  | vStr (s : String)
  | vNum (n : Int)
  | vBool (b : Bool)
  | vArr (xs : List JValue)

open JValue

mutual

/-- JS `String(v)` for a defined, non-undefined value (`Array.prototype.toString`
joins elements with commas, rendering `null` elements as the empty string). -/
def jsToString : JValue → String
  | .vNull => "null"
  | .vStr s => s
  | .vNum n => toString n
  | .vBool b => if b then "true" else "false"
  | .vArr xs => String.intercalate "," (jsToStringList xs)

def jsToStringList : List JValue → List String
  | [] => []
  | .vNull :: rest => "" :: jsToStringList rest
  | v :: rest => jsToString v :: jsToStringList rest

end

/-- JS `(value ?? '').toString()` / `String(value ?? '')`. -/
def jsToStringOrEmpty : Option JValue → String
  | none => ""
  | some .vNull => ""
  | some v => jsToString v

/-- JS `String(value)` with no null-coalescing (used by the `record_answer` bool
branch): `undefined` and `null` print as their names. -/
def jsStringRaw : Option JValue → String
  | none => "undefined"
  | some v => jsToString v

/-- JS truthiness of a value. -/
def truthyV : JValue → Bool
  | .vNull => false
  | .vStr s => !(s == "")
  | .vNum n => !(n == 0)
  | .vBool b => b
  | .vArr _ => true

/-- JS truthiness of a possibly-absent value. -/
def truthyO : Option JValue → Bool
  | none => false
  | some v => truthyV v

/-! ### Character-level machinery for the source's `norm`, `toLowerCase`, `trim` -/

def isDigitC (c : Char) : Bool := '0' ≤ c && c ≤ '9'

def isLowerC (c : Char) : Bool := 'a' ≤ c && c ≤ 'z'

def isUpperC (c : Char) : Bool := 'A' ≤ c && c ≤ 'Z'

/-- ASCII/JS whitespace recognized by `trim` and by `\s` on the strings in play. -/
def isSpC (c : Char) : Bool := c == ' ' || c == '\t' || c == '\n' || c == '\r'

def assocChar (c : Char) : List (Char × Char) → Option Char
  | [] => none
  | (k, v) :: rest => if c == k then some v else assocChar c rest

/-- Accented uppercase letters of the catalogue and their JS `toLowerCase` images. -/
def accentLowerPairs : List (Char × Char) :=
  [('À', 'à'), ('Â', 'â'), ('Ç', 'ç'), ('É', 'é'), ('È', 'è'), ('Ê', 'ê'),
   ('Ë', 'ë'), ('Î', 'î'), ('Ï', 'ï'), ('Ô', 'ô'), ('Ö', 'ö'), ('Ù', 'ù'),
   ('Û', 'û'), ('Ü', 'ü'), ('Œ', 'œ')]

/-- JS `toLowerCase` on one character (ASCII + the accented letters in play). -/
def jsLowerChar (c : Char) : Char :=
  if isUpperC c then Char.ofNat (c.toNat + 32)
  else match assocChar c accentLowerPairs with
    | some l => l
    | none => c

/-- JS `s.toLowerCase()`. -/
def jsToLower (s : String) : String := String.mk (s.data.map jsLowerChar)

/-- JS `s.trim()`. -/
def jsTrim (s : String) : String :=
  String.mk (((s.data.dropWhile isSpC).reverse.dropWhile isSpC).reverse)

/-- Accented lowercase letters and their NFD base letters (the combining mark the
source strips with `replace(/[̀-ͯ]/g, '')` is already dropped here).
`œ` has no canonical decomposition, so it is absent: the source's
`[^a-z0-9]+ → ' '` turns it into a separator. -/
def baseLetterPairs : List (Char × Char) :=
  [('à', 'a'), ('â', 'a'), ('ä', 'a'), ('ç', 'c'), ('é', 'e'), ('è', 'e'),
   ('ê', 'e'), ('ë', 'e'), ('î', 'i'), ('ï', 'i'), ('ô', 'o'), ('ö', 'o'),
   ('ù', 'u'), ('û', 'u'), ('ü', 'u')]

/-- One character through the source's `norm` pipeline
(`toLowerCase` → NFD → strip combining marks → keep `[a-z0-9]`, else separator):
`some c` = `c` survives into the current token, `none` = token separator. -/
def normChar (c : Char) : Option Char :=
  if isLowerC c || isDigitC c then some c
  else if isUpperC c then some (Char.ofNat (c.toNat + 32))
  else match assocChar (jsLowerChar c) baseLetterPairs with
    | some b => some b
    | none => none

def tokenizeAux (cur : List Char) : List Char → List String
  | [] => if cur.isEmpty then [] else [String.mk cur.reverse]
  | c :: rest =>
    match normChar c with
    | none =>
      if cur.isEmpty then tokenizeAux [] rest
      else String.mk cur.reverse :: tokenizeAux [] rest
    | some c' => tokenizeAux (c' :: cur) rest

/-- Tokens of the source's normalized string: `norm(s)` is a space-separated
sequence of nonempty `[a-z0-9]` words, and `norm(s).split(' ').filter(Boolean)`
recovers exactly this list; two strings have equal `norm` iff they have equal
token lists, so `tokenize` also stands in for `norm`-string comparison. -/
def tokenize (l : List Char) : List String := tokenizeAux [] l

/-- Tokens of `norm(vRaw)` in `ensureSelect` (its `replace(/['’]/g, "'")` keeps
apostrophes non-alphanumeric, so they are separators either way). -/
def tokensSel (s : String) : List String := tokenize s.data

def aposR : Char := Char.ofNat 0x2019

/-- Tokens of the multi-select `norm` (its `replace(/['’]/g, '')` deletes
apostrophes before the separator pass, fusing `d'usage` into `dusage`). -/
def tokensMulti (s : String) : List String :=
  tokenize (s.data.filter (fun c => !(c == '\x27' || c == aposR)))

/-! ### Word-sequence search: `\b(w1 w2 …)\b` regex alternatives over tokens.

On a `norm`ed string (single-space-separated maximal `[a-z0-9]` words) a
word-boundary-delimited alternative `w1\s+w2…` matches exactly when the word
sequence occurs as consecutive whole tokens. -/

def startsWithSeq : List String → List String → Bool
  | [], _ => true
  | _ :: _, [] => false
  | w :: ws, t :: ts => w == t && startsWithSeq ws ts

def seqWithin (ws : List String) : List String → Bool
  | [] => startsWithSeq ws []
  | t :: ts => startsWithSeq ws (t :: ts) || seqWithin ws ts

/-- JS `re.test(tokens)` for a `\b(alt1|alt2|…)\b` regex. -/
def reTest (alts : List (List String)) (toks : List String) : Bool :=
  alts.any (fun ws => seqWithin ws toks)

def startsWithChars : List Char → List Char → Bool
  | [], _ => true
  | _ :: _, [] => false
  | p :: ps, c :: cs => p == c && startsWithChars ps cs

def containsChars (pat : List Char) : List Char → Bool
  | [] => startsWithChars pat []
  | c :: cs => startsWithChars pat (c :: cs) || containsChars pat cs

/-- JS `/pat/i.test(s)` for a literal pattern. -/
def containsCI (s pat : String) : Bool :=
  containsChars (jsToLower pat).data (jsToLower s).data

/-! ### Question catalogue (src/constants.ts) -/

inductive QuestionType where
  | select
  | multiSelect
  | qstring
  | qbool
  deriving DecidableEq, Repr, Inhabited

structure Question where
  id : String
  label : String
  qtype : QuestionType
  notionKey : String
  options : List String := []
  maxItems : Option Nat := none
  triggerAutre : Option String := none
  autreKey : Option String := none
  deriving DecidableEq, Repr, Inhabited

def SOURCE_TAG : String := "Form-AMAI-GAIS-251017"

def QUESTIONS : List Question := [
  { id := "q01",
    label := "Comment décririez-vous la stratégie IA actuelle de votre entreprise ? Votre stratégie actuelle est-elle en phase d'exploration, plutôt en cours de mise en oeuvre ou entièrement intégrée et déployée  ? ",
    qtype := .select,
    notionKey := "Maturité – Stratégie",
    options := ["Pas de stratégie définie nous explorons simplement.",
      "Nous avons une stratégie de base pour des projets spécifiques mais non étendue à toute l'entreprise",
      "Nous avons une stratégie IA claire à l'échelle de l'entreprise en cours d'implémentation.",
      "Notre stratégie IA est entièrement intégrée à notre stratégie commerciale et stimule l'innovation."] },
  { id := "q02",
    label := "Comment décririez-vous l'état de l'infrastructure des données de votre entreprise ? Vos données sont plutôt bien structurées ou encore dispersées et difficilement exploitables ?",
    qtype := .select,
    notionKey := "Maturité – Données-Infrastructure",
    options := ["Les données sont cloisonnées et inaccessibles",
      "Nous commençons à centraliser les données mais c'est un travail en cours",
      "Nous disposons d'une plateforme de données centralisée et bien gérée",
      "Nos données sont un atout stratégique - disponibles pour modèles IA - gouvernance solide"] },
  { id := "q03",
    label := "Comment évaluez-vous les compétences en IA, Numérique ou digital au sein de vos équipes ?",
    qtype := .select,
    notionKey := "Maturité – Compétences",
    options := ["Très faibles. Nous avons peu ou pas d'expertise en interne.",
      "Basiques. Quelques membres de l'équipe ont des connaissances mais ce n'est pas généralisé.",
      "Modérées. Nous avons des équipes ou individus dédiés avec de solides compétences IA-Numérique",
      "Élevées. Expertise en IA-Numérique répandue et encouragée activement - culture d'apprentissage"] },
  { id := "q04",
    label := "Quelle est l'approche de l'entreprise pour adopter de nouvelles technologies comme l'IA ? Vous avez une approche plutôt attentiste, de test à petite échelle ou très proctive ? ",
    qtype := .select,
    notionKey := "Maturité – Adoption techno",
    options := ["Nous sommes très averses au risque et lents à adopter les nouvelles technologies.",
      "Nous expérimentons les nouvelles technologies à petite échelle et de manière informelle.",
      "Nous avons un processus formel pour piloter et adopter les nouvelles technologies.",
      "Notre R&D est très active en technologies de pointe. Objectif: obtenir un avantage concurrentiel"] },
  { id := "q05",
    label := "Comment les projets d'IA sont-ils gouvernés et priorisés dans votre organisation ?",
    qtype := .select,
    notionKey := "Maturité – Gouvernance",
    options := ["Il n'y a pas de processus formel de gouvernance ou de priorisation.",
      "Les projets sont menés par des départements individuels avec peu de supervision centrale.",
      "Nous avons un comité interfonctionnel qui examine et priorise les initiatives d'IA.",
      "Nous avons une gouvernance IA solide intégrant ROI mesurable éthique et stratégie"] },
  { id := "q06",
    label := "Quelle est votre position dans l'entreprise ?",
    qtype := .select,
    notionKey := "Statut Répondant - Position",
    options := ["Dirigeant / cadre dirigeant / visionnaire décisionnaire",
      "Responsable opérationnel (cadre dirigeant opérationnel)",
      "Collaborateur / expert technique",
      "Autre"],
    triggerAutre := some "Autre",
    autreKey := some "Statut Répondant – Autre" },
  { id := "q07",
    label := "Dans quel service ou département travaillez-vous ?",
    qtype := .select,
    notionKey := "Service-dépt Rep",
    options := ["Direction Générale",
      "Direction Financière / Comptable",
      "Direction Commerciale / Ventes",
      "Direction Marketing / Communication",
      "Direction Produit / Innovation",
      "Direction des Opérations / Logistique",
      "Direction des Ressources Humaines",
      "Direction Informatique / Systèmes d'Information",
      "Autre"],
    triggerAutre := some "Autre",
    autreKey := some "Service-dépt Rep Autre" },
  { id := "q08",
    label := "Quel est l'intitulé exact de votre poste ?",
    qtype := .select,
    notionKey := "Intitulé poste Rep",
    options := ["Président / CEO / Directeur Général",
      "Directeur Financier (CFO)",
      "Directeur des Opérations (COO)",
      "Directeur Technique / CTO / DSI",
      "Directeur Marketing / CMO",
      "Directeur Commercial / Responsable des Ventes",
      "Responsable Produit / Chef de Produit",
      "Responsable Logistique / Supply Chain",
      "Responsable des Ressources Humaines",
      "Responsable ADV / Administration des Ventes",
      "Autre"],
    triggerAutre := some "Autre",
    autreKey := some "Intitulé poste Rep-Autre" },
  { id := "q09",
    label := "Quel est le secteur d'activité principal de votre entreprise ?",
    qtype := .select,
    notionKey := "Secteur activité",
    options := ["Agriculture-sylviculture-pêche",
      "Industries extractives",
      "Industrie manufacturière",
      "Production-distribution énergie",
      "Production-distribution eau-gestion déchets",
      "Construction",
      "Commerce réparation automobiles-moto",
      "Transports-entreposage",
      "Hébergement-restauration",
      "Information-communication",
      "Finance-banque-assurance",
      "Immobilier",
      "Science-technique",
      "Service administratif-soutien",
      "Administration publique",
      "Enseignement",
      "Santé-action sociale",
      "Art-spectacle-activité_récréative",
      "Autres activités de services",
      "Autre"],
    triggerAutre := some "Autre",
    autreKey := some "Secteur activité-Autre" },
  { id := "q10",
    label := "Quel est le sous-secteur niche principal ?",
    qtype := .select,
    notionKey := "Sous-secteur niche",
    options := ["Agro-alimentaire",
      "Santé/Biotech",
      "Industrie Automobile",
      "Conseil Stratégique",
      "Aéronautique",
      "IT/SaaS",
      "Finance/Assurance",
      "Énergie",
      "Éducation",
      "Retail / E-commerce",
      "Autre"],
    triggerAutre := some "Autre",
    autreKey := some "Sous-secteur-Autre" },
  { id := "q11",
    label := "Quel est l'effectif total de votre entreprise ?",
    qtype := .select,
    notionKey := "Nbr employés",
    options := ["<50",
      "50-250",
      "250-500",
      "500-1000",
      ">1000"] },
  { id := "q12",
    label := "Quelle est votre tranche de chiffre d'affaires ?",
    qtype := .select,
    notionKey := "CA",
    options := ["<1 M€",
      "1-5 M€",
      "5-20 M€",
      "20-50 M€",
      ">50 M€"] },
  { id := "q13",
    label := "Quel type d'offres proposez-vous ? Plutôt des Produits physiques, des Services ou un mix des deux ?",
    qtype := .select,
    notionKey := "Type offres",
    options := ["Produits physiques",
      "Services",
      "Produits + services",
      "Solutions sur-mesure / projets",
      "Autre"],
    triggerAutre := some "Autre",
    autreKey := some "Type offres-Autre" },
  { id := "q14",
    label := "Pour vos offres, ciblez-vous plutôt le BtoB, les entreprises ou le BtoC, les personnes privées, ou les deux ?",
    qtype := .select,
    notionKey := "BtoB-BtoC",
    options := ["BtoB",
      "BtoC",
      "BtoB + BtoC"] },
  { id := "q15",
    label := "Combien d'entités sont concernées par cet audit ?",
    qtype := .select,
    notionKey := "Nbr Entités",
    options := ["1: entité principale",
      "2: entité principale + 1 filiale",
      "3: entité principale + 2 filiales",
      "4 ou plus",
      "Autre"],
    triggerAutre := some "Autre",
    autreKey := some "Nbr Entités-Autre" },
  { id := "q16",
    label := "Sur quel marché géographique intervenez-vous ?",
    qtype := .select,
    notionKey := "Marché desservi",
    options := ["Local / Régional",
      "National",
      "International",
      "Autre"],
    triggerAutre := some "Autre",
    autreKey := some "Marché desservi – Autre" },
  { id := "q17",
    label := "Quels sont vos objectifs principaux en matière d'IA et numérique ?",
    qtype := .multiSelect,
    notionKey := "Objectifs IA-Digital",
    options := ["Concevoir une application interne d’optimisation du cycle de vente.",
      "Mettre en place un tableau de bord automatisé pour piloter la performance.",
      "Créer un assistant IA pour automatiser les tâches administratives.",
      "Développer une solution de recommandation personnalisée (produits ou contenus).",
      "Automatiser la détection d’anomalies dans les données ou la production.",
      "Optimiser la maintenance prédictive des équipements.",
      "Assistance à la stratégie de l'entreprise : commercial",
      "Assistance à la stratégie de l'entreprise : innovation",
      "Assistance à la stratégie de l'entreprise : finance-fiscalité",
      "Assistance à la stratégie de l'entreprise : management",
      "Autre"],
    maxItems := some 7,
    triggerAutre := some "Autre",
    autreKey := some "Objectifs IA-Digital-Autre" },
  { id := "q18",
    label := "Quels sont vos principaux défis ?",
    qtype := .multiSelect,
    notionKey := "Défis prioritaires (max 3)",
    options := ["Définir ou actualiser la stratégie IA et Data",
      "Automatiser des processus internes / améliorer la productivité",
      "Améliorer la croissance commerciale / différenciation concurrentielle",
      "Mieux exploiter / valoriser les données (data management)",
      "Optimiser la marge et les coûts",
      "Renforcer la satisfaction client et l’expérience utilisateur",
      "Gouvernance et conformité (RGPD AI Act éthique)",
      "Recruter et développer les compétences IA/numériques",
      "Autre"],
    maxItems := some 3,
    triggerAutre := some "Autre",
    autreKey := some "Défis – Autre" },
  { id := "q19",
    label := "Quelles sont vos attentes vis-à-vis de l'IA et du Digital ?",
    qtype := .multiSelect,
    notionKey := "Attentes IA-Digital",
    options := ["Obtenir une proposition de valeur actualisée grâce à l’IA",
      "Bénéficier d’une approche stratégique et d’une feuille de route",
      "Mettre en place une approche opérationnelle (automatisation process)",
      "Gagner en productivité / gagner du temps",
      "Restaurer ou augmenter les marges",
      "Autre"],
    maxItems := some 5,
    triggerAutre := some "Autre",
    autreKey := some "Attentes IA-Digital-Autre" },
  { id := "q20",
    label := "Quel est votre e-mail professionnel ?",
    qtype := .qstring,
    notionKey := "e-mail répondant" },
  { id := "q21",
    label := "Acceptez-vous que Memo5D conserve ces données conformément aux CGU et à la politique RGPD ?",
    qtype := .qbool,
    notionKey := "Consentement RGPD (Oui/Non)" }]


/-- `NORMALIZATION_FALLBACKS_BY_NOTION_KEY` is the empty record in the source. -/
def NORMALIZATION_FALLBACKS_BY_NOTION_KEY : List (String × String) := []

/-! ### JS objects holding audit data -/

def AMap := String → Option JValue

def AMap.set (m : AMap) (k : String) (v : JValue) : AMap :=
  fun k' => if k' = k then some v else m k'

def AMap.del (m : AMap) (k : String) : AMap :=
  fun k' => if k' = k then none else m k'

def emptyAMap : AMap := fun _ => none

def listAMap (l : List (String × JValue)) : AMap :=
  fun k => (l.find? (fun p => p.1 == k)).map (·.2)

/-! ### `buildGuaranteedPayload` (src/unnamed/part_003, lines 261-559) -/

/-- `!!q.autreKey` with JS falsiness of the empty string folded in. -/
def autreKeyN (q : Question) : Option String :=
  match q.autreKey with
  | some k => if k = "" then none else some k
  | none => none

def triggerN (q : Question) : Option String :=
  match q.triggerAutre with
  | some t => if t = "" then none else some t
  | none => none

def hasAutre (q : Question) : Bool :=
  (autreKeyN q).isSome &&
    (match triggerN q with
     | some t => q.options.contains t
     | none => q.options.contains "Autre")

def autreLabel (q : Question) : String := (triggerN q).getD "Autre"

/-- JS `/^\d+$/.test(vRaw)`. -/
def isDigitStr (s : String) : Bool := !s.data.isEmpty && s.data.all isDigitC

def digitsToNat (l : List Char) : Nat :=
  l.foldl (fun a c => a * 10 + (c.toNat - '0'.toNat)) 0

/-- Step 1: exact literal match against the allowed options. -/
def selLiteral (opts : List String) (vRaw : String) : Option String :=
  if opts.contains vRaw then some vRaw else none

/-- Step 2: numeric-index shorthand `"2" → opts[1]` (out-of-range indices fall
through to the next steps, as in the source). -/
def selIndex (opts : List String) (vRaw : String) : Option String :=
  if isDigitStr vRaw then
    if 1 ≤ digitsToNat vRaw.data ∧ digitsToNat vRaw.data ≤ opts.length then
      some (opts.getD (digitsToNat vRaw.data - 1) "")
    else none
  else none

/-- Step 3: the `optByNorm` map built left-to-right (later duplicate `norm` keys
overwrite earlier ones, as in `new Map`); `norm`-string equality is represented
by token-list equality, see `tokenize`. -/
def selNorm (opts : List String) (vRaw : String) : Option String :=
  let key := tokensSel vRaw
  opts.foldl (fun acc o => if tokensSel o = key then some o else acc) none

/-- JS `/^q0[1-5]$/i.test(qid)`. -/
def qidIsQ01toQ05 (qid : String) : Bool :=
  let l := jsToLower qid
  l == "q01" || l == "q02" || l == "q03" || l == "q04" || l == "q05"

def maturiteBranch (r : List Char) : Bool :=
  startsWithChars "stratégie".data r || startsWithChars "données".data r ||
    startsWithChars "process".data r || startsWithChars "gouvernance".data r ||
    startsWithChars "compétences".data r

def maturiteAt (l : List Char) : Bool :=
  startsWithChars "maturité".data l &&
    (match (l.drop 8).dropWhile isSpC with
     | d :: r => d == Char.ofNat 0x2013 && maturiteBranch (r.dropWhile isSpC)
     | [] => false)

def nkMaturiteSearch : List Char → Bool
  | [] => maturiteAt []
  | c :: cs => maturiteAt (c :: cs) || nkMaturiteSearch cs

/-- JS `/Maturité\s*–\s*(Stratégie|Données|Process|Gouvernance|Compétences)/i.test(nk)`. -/
def nkIsMaturite (nk : String) : Bool := nkMaturiteSearch (jsToLower nk).data

/-- JS `/Donnees|Données/i.test(nk)`. -/
def nkHasDonnees (nk : String) : Bool :=
  containsCI nk "Donnees" || containsCI nk "Données"

def kwExplore : List (List String) :=
  [["explore"], ["exploration"], ["test"], ["pilote"], ["poc"], ["debut"], ["commence"]]

def kwNoStrategy : List (List String) :=
  [["pas", "de", "strategie"], ["aucun", "cadre"], ["rien", "de", "structure"]]

def kwProjets : List (List String) :=
  [["projet"], ["cas", "d", "usage"], ["use", "case"], ["ponctuel"], ["quelques"]]

def kwNonEtendu : List (List String) :=
  [["non", "etendu"], ["pas", "generalise"], ["pas", "a", "l", "echelle"]]

def kwDeploiement : List (List String) :=
  [["entreprise"], ["global"], ["transverse"], ["deploi"], ["mise", "en", "place"],
   ["en", "cours"]]

def kwStructure : List (List String) :=
  [["structure"], ["formalise"], ["strategie", "claire"]]

def kwIntegre : List (List String) :=
  [["integre"], ["integration"], ["aligne"], ["commercial"], ["innovation"],
   ["avantage"], ["competitif"]]

def kwStimule : List (List String) := [["stimule"], ["accelere"], ["transforme"]]

def kwDataPlateforme : List (List String) :=
  [["structure"], ["consolide"], ["centralise"], ["plateforme"], ["gouvernance"]]

def kwDataCloisonne : List (List String) := [["cloisonne"], ["inaccessible"]]

structure Scores4 where
  s0 : Nat
  s1 : Nat
  s2 : Nat
  s3 : Nat

def Scores4.get (s : Scores4) : Nat → Nat
  | 0 => s.s0
  | 1 => s.s1
  | 2 => s.s2
  | _ => s.s3

/-- The step-4 keyword buckets of `ensureSelect` over the normalized tokens of
the input (`scoreByIndex`), including the Q02 data-question adjustments. -/
def maturityScores (nk : String) (toks : List String) : Scores4 :=
  let s0 := (if reTest kwExplore toks then 2 else 0) +
    (if reTest kwNoStrategy toks then 3 else 0)
  let s1 := (if reTest kwProjets toks then 2 else 0) +
    (if reTest kwNonEtendu toks then 2 else 0)
  let s2 := (if reTest kwDeploiement toks then 2 else 0) +
    (if reTest kwStructure toks then 2 else 0)
  let s3 := (if reTest kwIntegre toks then 2 else 0) +
    (if reTest kwStimule toks then 1 else 0)
  if nkHasDonnees nk then
    ⟨s0 + (if reTest kwDataCloisonne toks then 3 else 0), s1,
     s2 + (if reTest kwDataPlateforme toks then 3 else 0), s3⟩
  else ⟨s0, s1, s2, s3⟩

/-- The `bestIdx` scan, step `i = 1`: `if score[1] > score[bestIdx]`. -/
def bestOf1 (sc : Scores4) : Nat := if sc.get 0 < sc.get 1 then 1 else 0

/-- The `bestIdx` scan, step `i = 2`. -/
def bestOf2 (sc : Scores4) : Nat :=
  if sc.get (bestOf1 sc) < sc.get 2 then 2 else bestOf1 sc

/-- The `bestIdx` scan, step `i = 3` (the final `bestIdx`). -/
def bestOf4 (sc : Scores4) : Nat :=
  if sc.get (bestOf2 sc) < sc.get 3 then 3 else bestOf2 sc

/-- `Math.max(...scoreByIndex)`. -/
def maxScore4 (sc : Scores4) : Nat := max (max sc.s0 sc.s1) (max sc.s2 sc.s3)

/-- Step 4: keyword heuristics for Q01-Q05.  `qid` in the source is
`q.questionId ?? q.id ?? ''`; the catalogue objects never carry `questionId`,
so it is `q.id`. -/
def selHeuristic (q : Question) (vRaw : String) : Option String :=
  if (qidIsQ01toQ05 q.id || nkIsMaturite q.notionKey) &&
      decide (4 ≤ q.options.length) then
    if 0 < maxScore4 (maturityScores q.notionKey (tokensSel vRaw)) then
      some (q.options.getD (bestOf4 (maturityScores q.notionKey (tokensSel vRaw))) "")
    else none
  else none

/-- Step 6: explicit business fallback (the table is empty in the source). -/
def fbOption (nk : String) (opts : List String) : Option String :=
  match NORMALIZATION_FALLBACKS_BY_NOTION_KEY.find? (fun p => p.1 == nk) with
  | some p => if opts.contains p.2 then some p.2 else none
  | none => none

/-- Step 7: nearest option by token-overlap (Jaccard) ratio, kept as an exact
`(numerator, positive denominator)` pair (`sc = inter/union`, or `0` when the
union is empty); the source compares IEEE doubles of these tiny integer ratios,
which exact rational comparison reads faithfully. -/
def jaccardPair (vset : List String) (o : String) : Int × Nat :=
  let oset := (tokensSel o).dedup
  let inter := (vset.filter (fun t => oset.contains t)).length
  let union := vset.length + oset.length - inter
  if union = 0 then ((0 : Int), 1) else ((inter : Int), union)

/-- `a.1/a.2 < b.1/b.2` for positive denominators. -/
def ratLt (a b : Int × Nat) : Bool := a.1 * (b.2 : Int) < b.1 * (a.2 : Int)

/-- `bestScore` starts at `-1`, so the first option always beats the initial
value; `sc > bestScore` is a strict comparison, so later ties do not displace
the incumbent. -/
def bestJaccard (toks : List String) (opts : List String) : String :=
  let vset := toks.dedup
  (opts.foldl (fun acc o =>
      let sc := jaccardPair vset o
      if ratLt acc.2 sc then (o, sc) else acc)
    (opts.headD "", ((-1 : Int), (1 : Nat)))).1

/-- `ensureSelect` (part_003, lines 275-384).  Returns the resolved option and
the updated `base` (step 5 may store the raw text under the escape key).
`jsTrim (jsToStringOrEmpty value)` is the source's `vRaw`. -/
def ensureSelect (q : Question) (value : Option JValue) (base : AMap) :
    String × AMap :=
  if jsTrim (jsToStringOrEmpty value) = "" then
    (if hasAutre q then autreLabel q else q.options.headD "", base)
  else
    match selLiteral q.options (jsTrim (jsToStringOrEmpty value)) with
    | some r => (r, base)
    | none =>
    match selIndex q.options (jsTrim (jsToStringOrEmpty value)) with
    | some r => (r, base)
    | none =>
    match selNorm q.options (jsTrim (jsToStringOrEmpty value)) with
    | some r => (r, base)
    | none =>
    match selHeuristic q (jsTrim (jsToStringOrEmpty value)) with
    | some r => (r, base)
    | none =>
      if hasAutre q then
        match autreKeyN q with
        | some ak =>
          (autreLabel q,
            if truthyO (base ak) then base
            else base.set ak (.vStr (jsTrim (jsToStringOrEmpty value))))
        | none => (autreLabel q, base)
      else
        match fbOption q.notionKey q.options with
        | some fb => (fb, base)
        | none =>
          (bestJaccard (tokensSel (jsTrim (jsToStringOrEmpty value))) q.options, base)

/-! ### `ensureMultiSelect` (part_003, lines 386-521) -/

def isDelimC (c : Char) : Bool := c == '\n' || c == ',' || c == ';' || c == '|'

def splitDelimsAux (cur : List Char) : List Char → List (List Char)
  | [] => if cur.isEmpty then [] else [cur.reverse]
  | c :: rest =>
    if isDelimC c then
      if cur.isEmpty then splitDelimsAux [] rest
      else cur.reverse :: splitDelimsAux [] rest
    else splitDelimsAux (c :: cur) rest

/-- Split on `/[\n,;|]+/` (empty pieces are dropped: the caller filters them). -/
def splitDelims (l : List Char) : List (List Char) := splitDelimsAux [] l

def parseTokens (v : Option JValue) : List String :=
  match v with
  | some (.vArr xs) =>
    (xs.map (fun x => jsTrim (jsToStringOrEmpty (some x)))).filter (fun s => !(s == ""))
  | some (.vStr s) =>
    ((splitDelims s.data).map (fun cs => jsTrim (String.mk cs))).filter (fun s => !(s == ""))
  | _ => []

def isWordC (c : Char) : Bool := isDigitC c || isLowerC c || isUpperC c || c == '_'

/-- JS `/^(\d{1,2})\b/.exec(t)`: one or two leading digits followed by a word
boundary (backtracking from two digits to one never helps, since a digit is a
word character). -/
def leadIndex (t : String) : Option Nat :=
  match t.data with
  | [] => none
  | c1 :: rest =>
    if isDigitC c1 then
      match rest with
      | [] => some (digitsToNat [c1])
      | c2 :: rest2 =>
        if isDigitC c2 then
          match rest2 with
          | [] => some (digitsToNat [c1, c2])
          | c3 :: _ => if isWordC c3 then none else some (digitsToNat [c1, c2])
        else if isWordC c2 then none else some (digitsToNat [c1])
    else none

def tokenToOptionByIndex (opts : List String) (t : String) : Option String :=
  match leadIndex t with
  | some idx => if 1 ≤ idx ∧ idx ≤ opts.length then some (opts.getD (idx - 1) "") else none
  | none => none

/-- `pushUnique`: pushes only truthy, not-yet-present values. -/
def pushUnique (arr : List String) (v : String) : List String :=
  if v ≠ "" ∧ ¬ arr.contains v then arr ++ [v] else arr

/-- JS `t.replace(/^\d+\s*[.)-]\s*/g, '')`. -/
def stripLeadNum (t : String) : String :=
  let ds := t.data.takeWhile isDigitC
  if ds.isEmpty then t
  else
    match (t.data.drop ds.length).dropWhile isSpC with
    | c :: rest =>
      if c == '.' || c == ')' || c == '-' then String.mk (rest.dropWhile isSpC) else t
    | [] => t

def step1Literal (opts : List String) (sel : List String) (t : String) : List String :=
  if opts.contains t then pushUnique sel t
  else if opts.contains (jsTrim (stripLeadNum t)) then
    pushUnique sel (jsTrim (stripLeadNum t))
  else sel

/-- Step 1 of `ensureMultiSelect`: explicit values (index forms, exact labels,
`"n. label"` forms). -/
def multiStep1 (opts : List String) (rawToks : List String) : List String :=
  rawToks.foldl (fun sel t =>
    match tokenToOptionByIndex opts t with
    | some byIdx => if byIdx ≠ "" then pushUnique sel byIdx else step1Literal opts sel t
    | none => step1Literal opts sel t) []

def condAdd (b : Bool) (i w : Nat) : List (Nat × Nat) := if b then [(i, w)] else []

/-- The guarded `add(idx0, w)` of the source: out-of-range indices are ignored. -/
def addAt (l : List Nat) (i w : Nat) : List Nat :=
  if i < l.length then l.set i (l.getD i 0 + w) else l

def applyAdds (l : List Nat) (adds : List (Nat × Nat)) : List Nat :=
  adds.foldl (fun acc p => addAt acc p.1 p.2) l

def q17Adds (t : List String) : List (Nat × Nat) :=
  condAdd (reTest [["cycle", "de", "vente"], ["vente"], ["crm"], ["prospection"],
    ["pipeline"], ["commercial"]] t) 0 3 ++
  condAdd (reTest [["tableau", "de", "bord"], ["dashboard"], ["kpi"], ["reporting"],
    ["pilotage"]] t) 1 3 ++
  condAdd (reTest [["assistant"], ["automatiser"], ["administratif"], ["factur"],
    ["compta"], ["rh"]] t) 2 3 ++
  condAdd (reTest [["recommandation"], ["personnalis"], ["produit"], ["contenu"]] t) 3 3 ++
  condAdd (reTest [["anomalie"], ["qualite"], ["defaut"], ["controle"],
    ["production"]] t) 4 3 ++
  condAdd (reTest [["maintenance"], ["predict"], ["equipement"], ["panne"]] t) 5 3 ++
  (if reTest [["strategie"]] t then
    condAdd (reTest [["commercial"]] t) 6 2 ++
    condAdd (reTest [["innovation"]] t) 7 2 ++
    condAdd (reTest [["finance"], ["fiscal"]] t) 8 2 ++
    condAdd (reTest [["management"], ["organisation"]] t) 9 2
  else [])

def q18Adds (t : List String) : List (Nat × Nat) :=
  condAdd (reTest [["strategie"], ["data"]] t) 0 3 ++
  condAdd (reTest [["process"], ["productiv"], ["automatis"]] t) 1 3 ++
  condAdd (reTest [["croissance"], ["commercial"], ["differenci"], ["concurr"]] t) 2 3 ++
  condAdd (reTest [["donnees"], ["valoris"], ["data", "management"], ["qualite"]] t) 3 3 ++
  condAdd (reTest [["marge"], ["cout"]] t) 4 3 ++
  condAdd (reTest [["satisfaction"], ["client"], ["experience"]] t) 5 3 ++
  condAdd (reTest [["rgpd"], ["ai", "act"], ["ethique"], ["conform"]] t) 6 3 ++
  condAdd (reTest [["recrut"], ["competenc"], ["formation"], ["skill"]] t) 7 3

def q19Adds (t : List String) : List (Nat × Nat) :=
  condAdd (reTest [["proposition", "de", "valeur"], ["valeur"]] t) 0 3 ++
  condAdd (reTest [["feuille", "de", "route"], ["roadmap"], ["strateg"]] t) 1 3 ++
  condAdd (reTest [["operationnel"], ["automatis"], ["process"]] t) 2 3 ++
  condAdd (reTest [["productiv"], ["temps"], ["gagner", "du", "temps"]] t) 3 3 ++
  condAdd (reTest [["marge"]] t) 4 3

/-- Step 2 of `ensureMultiSelect`: keyword scoring of the escape text; scores
`> 0` ranked descending (stable, as JS `sort`), truncated to `maxItems`, mapped
back to option labels.  The source's `/q17|q18|q19/i.test(qid)` alternatives are
dead code (`qid` is `String(q.questionId ?? '') = ''` there), so the notion-key
checks decide alone. -/
def rankedAdds (q : Question) (t : List String) : List (Nat × Nat) :=
  (if containsCI q.notionKey "Objectifs IA-Digital" then q17Adds t else []) ++
  (if containsCI q.notionKey "Défis prioritaires" then q18Adds t else []) ++
  (if containsCI q.notionKey "Attentes IA-Digital" then q19Adds t else [])

def rankedFor (q : Question) (t : List String) (maxItems : Nat) : List String :=
  (((((applyAdds (List.replicate q.options.length 0) (rankedAdds q t)).enum.filter
    (fun p => 0 < p.2)).mergeSort (fun a b => b.2 ≤ a.2)).take
    maxItems)).map (fun p => q.options.getD p.1 "")

def multiMaxItems (q : Question) : Nat :=
  match q.maxItems with
  | some m => if m = 0 then q.options.length else m
  | none => q.options.length

def isQ17toQ19nk (nk : String) : Bool :=
  containsCI nk "Objectifs IA-Digital" || containsCI nk "Défis prioritaires" ||
    containsCI nk "Attentes IA-Digital"

def multiAutreText (q : Question) (value : Option JValue) (base : AMap) : String :=
  let fromValue :=
    match value with
    | some (.vStr s) => jsTrim s
    | _ => ""
  match autreKeyN q with
  | some ak =>
    match base ak with
    | some (.vStr s) => if jsTrim s ≠ "" then jsTrim s else fromValue
    | _ => fromValue
  | none => fromValue

/-- The `ranked` list of step 2 (empty when the notion-key/escape-text guard
does not hold). -/
def rankedStep (q : Question) (value : Option JValue) (base : AMap) : List String :=
  if isQ17toQ19nk q.notionKey && !(multiAutreText q value base == "") then
    rankedFor q (tokensMulti (multiAutreText q value base)) (multiMaxItems q)
  else []

/-- `String(autreText || value || '').trim()` of the step-3 fallback. -/
def multiFallbackText (q : Question) (value : Option JValue) (base : AMap) : String :=
  jsTrim (if multiAutreText q value base ≠ "" then multiAutreText q value base
    else match value with
      | some v => if truthyV v then jsToString v else ""
      | none => "")

def ensureMultiSelect (q : Question) (value : Option JValue) (base : AMap) :
    List String × AMap :=
  if multiStep1 q.options (parseTokens value) ≠ [] then
    ((multiStep1 q.options (parseTokens value)).take (multiMaxItems q), base)
  else if rankedStep q value base ≠ [] then (rankedStep q value base, base)
  else if hasAutre q then
    match autreKeyN q with
    | some ak =>
      ([autreLabel q],
        if truthyO (base ak) then base
        else base.set ak (.vStr (multiFallbackText q value base)))
    | none => ([autreLabel q], base)
  else ([], base)

/-- `ensureBool` (part_003, lines 523-527). -/
def ensureBool (value : Option JValue) : Bool :=
  match value with
  | some (.vBool b) => b
  | _ =>
    let v := jsTrim (jsToLower (jsToStringOrEmpty value))
    v == "true" || v == "oui" || v == "ok" || v == "accord" || v == "yes" ||
      v == "j'accepte" || v == "accepte"

/-- One pass of the question-by-question enforcement loop. -/
def enforceQuestion (base : AMap) (q : Question) : AMap :=
  let current := base q.notionKey
  match q.qtype with
  | .multiSelect =>
    let r := ensureMultiSelect q current base
    r.2.set q.notionKey (.vArr (r.1.map JValue.vStr))
  | .qbool => base.set q.notionKey (.vBool (ensureBool current))
  | .select =>
    let r := ensureSelect q current base
    r.2.set q.notionKey (.vStr r.1)
  | .qstring =>
    match current with
    | none => base.set q.notionKey (.vStr "")
    | some .vNull => base.set q.notionKey (.vStr "")
    | some _ => base

/-- `{ ...rawData, ...(candidate || {}) }`. -/
def mergeBase (rawData : AMap) (candidate : Option AMap) : AMap :=
  fun k =>
    match candidate with
    | some c =>
      match c k with
      | some v => some v
      | none => rawData k
    | none => rawData k

/-- JS `cur || d`. -/
def jsOr (cur : Option JValue) (d : JValue) : JValue :=
  match cur with
  | some v => if truthyV v then v else d
  | none => d

/-- The `Nom soumission` derivation at the end of `buildGuaranteedPayload`:
when absent/falsy and the e-mail field is a string containing `@`, the part
before the first `@` becomes the respondent display name. -/
def attachNom (b6 : AMap) : AMap :=
  if !truthyO (b6 "Nom soumission") then
    match b6 "e-mail répondant" with
    | some (.vStr e) =>
      if e.data.contains '@' then
        b6.set "Nom soumission" (.vStr (String.mk (e.data.takeWhile (fun c => !(c == '@')))))
      else b6
    | _ => b6
  else b6

/-- The metadata tail of `buildGuaranteedPayload` (Notion/n8n compat fields and
the derived respondent name). -/
def attachMeta (b1 : AMap) (nowISO : String) (sessionId : Option String) : AMap :=
  let b2 := b1.set "session_id"
    (match sessionId with
     | some s => .vStr s
     | none => .vNull)
  let b3 := b2.set "source" (.vStr SOURCE_TAG)
  let dVal := jsOr (b3 "Date soumission") (.vStr nowISO)
  let b4 := b3.set "Date soumission" dVal
  let b5 := b4.set "'Date soumission'" (jsOr (b4 "'Date soumission'") dVal)
  let b6 := b5.set "executionMode" (jsOr (b5 "executionMode") (.vStr "production_guarded"))
  attachNom b6

/-- `buildGuaranteedPayload` (part_003, lines 261-559).  `nowISO` stands for
`new Date().toISOString()` and `sessionId` for `currentSessionIdRef.current`;
the `transcript` parameter is never read by the function body. -/
def buildGuaranteedPayload (rawData : AMap) (transcript : List (String × String))
    (candidate : Option AMap) (nowISO : String) (sessionId : Option String) : AMap :=
  attachMeta (QUESTIONS.foldl enforceQuestion (mergeBase rawData candidate)) nowISO sessionId

/-- Stage A's network call abstracted: `ok c` = the `/api/normalize` proxy
answered 2xx and `data.candidate` parsed to `c` (`none` when it was not an
object); `fail` = non-2xx, timeout, abort, or a thrown error. -/
inductive MappingOutcome where
  | ok (candidate : Option AMap)
  | fail

/-- `normalizeAuditData` (part_003, lines 561-640): every outcome of the
semantic-mapping call ends in `buildGuaranteedPayload`; no outcome propagates an
error out of the pipeline. -/
def normalizeAuditData (transcript : List (String × String)) (rawData : AMap)
    (outcome : MappingOutcome) (nowISO : String) (sessionId : Option String) : AMap :=
  match outcome with
  | .ok c => buildGuaranteedPayload rawData transcript c nowISO sessionId
  | .fail => buildGuaranteedPayload rawData transcript none nowISO sessionId

/-! ### Interview sessions and the `record_answer` tool (part_003, lines 19-27, 707-744) -/

structure Session where
  id : String
  createdAt : Nat
  currentStep : Nat
  auditData : AMap
  transcript : List (String × String)
  isFinished : Bool
  consecutiveErrors : Nat

/-- Arguments of a `record_answer` tool call (all optional but `questionId`). -/
structure RecordArgs where
  questionId : String
  value : Option JValue := none
  multiValues : Option (List JValue) := none
  autreValue : Option JValue := none

/-- The BOOL branch of `handleRecordAnswer`:
`String(value).toLowerCase().trim()` against the affirmative vocabulary
(this list has no `j'accepte`/`accepte`, unlike `ensureBool`). -/
def parseBoolRecord (value : Option JValue) : Bool :=
  let v := jsTrim (jsToLower (jsStringRaw value))
  v == "true" || v == "oui" || v == "ok" || v == "accord" || v == "yes"

/-- The per-kind write into `newData` plus the `autreValue` write. -/
def recordNewData (q : Question) (args : RecordArgs) (old : AMap) : AMap :=
  let d1 :=
    match q.qtype with
    | .multiSelect => old.set q.notionKey (.vArr (args.multiValues.getD []))
    | .qbool => old.set q.notionKey (.vBool (parseBoolRecord args.value))
    | _ =>
      match args.value with
      | some v => old.set q.notionKey v
      | none => old.del q.notionKey
  match autreKeyN q with
  | some ak => if truthyO args.autreValue then d1.set ak ((args.autreValue).getD .vNull) else d1
  | none => d1

/-- JS `QUESTIONS.findIndex(q => q.id === questionId)` (`none` = `-1`). -/
def findIdxQ (qid : String) : List Question → Option Nat
  | [] => none
  | q :: rest => if q.id = qid then some 0 else (findIdxQ qid rest).map (· + 1)

/-- `handleRecordAnswer` (part_003, lines 707-744): returns the new session
list, the textual tool result, and whether the call triggered the completion
path (`submitToWebhook` + `[EVENT: AUDIT_COMPLETED]`). -/
def handleRecordAnswer (currentId : Option String) (sessions : List Session)
    (args : RecordArgs) : List Session × String × Bool :=
  match currentId with
  | none => (sessions, "Erreur session.", false)
  | some cid =>
    match findIdxQ args.questionId QUESTIONS with
    | none => (sessions, "ID de question invalide.", false)
    | some qIndex =>
      let nextStep := qIndex + 1
      match sessions.find? (fun s => s.id = cid) with
      | none => (sessions, "Session introuvable.", false)
      | some sess =>
        let q := QUESTIONS.getD qIndex default
        let newData := recordNewData q args sess.auditData
        let sessions' := sessions.map (fun s =>
          if s.id = cid then
            { s with auditData := newData, currentStep := nextStep, consecutiveErrors := 0 }
          else s)
        if QUESTIONS.length ≤ nextStep then (sessions', "[EVENT: AUDIT_COMPLETED]", true)
        else (sessions', "[EVENT: RECORD_SUCCESS]", false)

def isRecordError (msg : String) : Bool :=
  msg == "Erreur session." || msg == "ID de question invalide." || msg == "Session introuvable."

/-- A sequence of `record_answer` calls: final session list and how many calls
triggered the completion path. -/
def runRecord (currentId : Option String) (sessions : List Session) :
    List RecordArgs → List Session × Nat
  | [] => (sessions, 0)
  | a :: rest =>
    let r := handleRecordAnswer currentId sessions a
    let t := runRecord currentId r.1 rest
    (t.1, (if r.2.2 then 1 else 0) + t.2)

/-- The current session's question pointer. -/
def stepOf (sessions : List Session) (cid : String) : Option Nat :=
  (sessions.find? (fun s => s.id = cid)).map (fun s => s.currentStep)

/-- The pointer value after each call of a `record_answer` sequence. -/
def stepTrace (currentId : Option String) (sessions : List Session) :
    List RecordArgs → List (Option Nat)
  | [] => []
  | a :: rest =>
    let r := handleRecordAnswer currentId sessions a
    (match currentId with
     | some cid => stepOf r.1 cid
     | none => none) :: stepTrace currentId r.1 rest

/-! ### Playback scheduling (part_003, `onmessage` audio branch, lines 911-923)

Each inbound chunk is an `(observed current time, decoded buffer duration)`
pair; a chunk is scheduled at `max(nextStartTime, currentTime)` and the cursor
advances by the buffer duration.  Times are exact rationals. -/

/-- The `(currentTime, start, duration)` triple of each scheduled chunk, in
arrival order, threading the `nextStartTimeRef` cursor. -/
def scheduleTrace (cursor : ℚ) : List (ℚ × ℚ) → List (ℚ × ℚ × ℚ)
  | [] => []
  | (now, dur) :: rest =>
    let start := max cursor now
    (now, start, dur) :: scheduleTrace (start + dur) rest

/-! ### Submission pipeline (part_003 lines 648-705; part_002 lines 326-366) -/

/-- Outcome of one delivery `fetch` of the payload. -/
inductive FetchOutcome where
  | ok
  | httpError (status : Nat)
  | netError
  | aborted

def FetchOutcome.isOk : FetchOutcome → Bool
  | .ok => true
  | _ => false

def FetchOutcome.isAbort : FetchOutcome → Bool
  | .aborted => true
  | _ => false

inductive SubmissionStatus where
  | success
  | error
  deriving DecidableEq

/-- `submitToWebhook` (part_003): normalization cannot throw (every path of
`normalizeAuditData` returns a payload), then exactly one delivery `fetch` is
issued; the catch branch sets the error state and never re-invokes the fetch.
Result: payload, final status, number of delivery calls issued. -/
def submitToWebhookV3 (rawData : AMap) (transcript : List (String × String))
    (mapping : MappingOutcome) (outcome : FetchOutcome) (nowISO : String)
    (sessionId : Option String) : AMap × SubmissionStatus × Nat :=
  let payload := normalizeAuditData transcript rawData mapping nowISO sessionId
  (payload, if outcome.isOk then .success else .error, 1)

/-- `submitToWebhook` (part_002, the superseded variant): on a failed attempt it
recurses once (`retryCount < 1` and not an `AbortError`), issuing a second
delivery.  `outcomes n` is the outcome of attempt `n`; the result is the final
status and the number of delivery calls issued. -/
def submitToWebhookV2 (outcomes : Nat → FetchOutcome) (attempt retryCount : Nat) :
    SubmissionStatus × Nat :=
  match h : outcomes attempt with
  | .ok => (.success, 1)
  | o =>
    if retryCount < 1 ∧ ¬ o.isAbort then
      let r := submitToWebhookV2 outcomes (attempt + 1) (retryCount + 1)
      (r.1, r.2 + 1)
    else (.error, 1)
termination_by 1 - retryCount
decreasing_by omega

/-! ## Shared lemmas -/

theorem AMap.set_lookup (m : AMap) (k : String) (v : JValue) (k' : String) :
    m.set k v k' = if k' = k then some v else m k' := rfl

theorem findIdxQ_lt_length {qid : String} : ∀ {qs : List Question} {i : Nat},
    findIdxQ qid qs = some i → i < qs.length := by
  intro qs
  induction qs with
  | nil => intro i h; cases h
  | cons q rest ih =>
    intro i h
    unfold findIdxQ at h
    split at h
    · cases h
      simp
    · cases hr : findIdxQ qid rest with
      | none => rw [hr] at h; cases h
      | some j =>
        rw [hr] at h
        cases h
        simpa using Nat.succ_lt_succ (ih hr)

theorem find?_map_update (sessions : List Session) (cid : String) (upd : Session → Session)
    (hid : ∀ s, (upd s).id = s.id) :
    (sessions.map (fun s => if s.id = cid then upd s else s)).find? (fun s => s.id = cid) =
      (sessions.find? (fun s => s.id = cid)).map upd := by
  induction sessions with
  | nil => rfl
  | cons s rest ih =>
    by_cases h : s.id = cid
    · simp [List.find?_cons, h, hid]
    · simp [List.find?_cons, h, ih]

/-- The session update a successful `record_answer` applies. -/
def recordUpd (i : Nat) (args : RecordArgs) (data : AMap) (s : Session) : Session :=
  { s with auditData := recordNewData (QUESTIONS.getD i default) args data,
           currentStep := i + 1, consecutiveErrors := 0 }

theorem handleRecord_success_eq (cid : String) (sessions : List Session) (args : RecordArgs)
    (i : Nat) (s : Session) (hidx : findIdxQ args.questionId QUESTIONS = some i)
    (hfind : sessions.find? (fun s => s.id = cid) = some s) :
    handleRecordAnswer (some cid) sessions args =
      (sessions.map (fun s' => if s'.id = cid then recordUpd i args s.auditData s' else s'),
       if QUESTIONS.length ≤ i + 1 then "[EVENT: AUDIT_COMPLETED]" else "[EVENT: RECORD_SUCCESS]",
       decide (QUESTIONS.length ≤ i + 1)) := by
  unfold handleRecordAnswer
  simp only [hidx, hfind]
  by_cases h : QUESTIONS.length ≤ i + 1
  · simp [h, recordUpd]
  · simp [h, recordUpd]

theorem handleRecord_fail_eq (currentId : Option String) (sessions : List Session)
    (args : RecordArgs)
    (h : currentId = none ∨ findIdxQ args.questionId QUESTIONS = none ∨
      (∀ cid, currentId = some cid → sessions.find? (fun s => s.id = cid) = none)) :
    (handleRecordAnswer currentId sessions args).1 = sessions ∧
      (handleRecordAnswer currentId sessions args).2.2 = false ∧
      isRecordError (handleRecordAnswer currentId sessions args).2.1 = true := by
  unfold handleRecordAnswer
  cases currentId with
  | none => exact ⟨rfl, rfl, rfl⟩
  | some cid =>
    rcases h with h | h | h
    · cases h
    · simp only [h]
      refine ⟨?_, ?_, ?_⟩ <;> trivial
    · cases hidx : findIdxQ args.questionId QUESTIONS with
      | none =>
        simp only [hidx]
        refine ⟨?_, ?_, ?_⟩ <;> trivial
      | some i =>
        simp only [hidx, h cid rfl]
        refine ⟨?_, ?_, ?_⟩ <;> trivial

/-! ## Claim C9 -/

/-- C9: for the maturity question q04 (no "other" escape), the raw input
"on teste un peu à petite échelle" resolves through `ensureSelect` to the
small-scale-experimentation option. -/
theorem scenario_q04_small_scale :
    (QUESTIONS.getD 3 default).id = "q04" ∧
    (QUESTIONS.getD 3 default).autreKey = none ∧
    (ensureSelect (QUESTIONS.getD 3 default)
        (some (JValue.vStr "on teste un peu à petite échelle")) emptyAMap).1 =
      "Nous expérimentons les nouvelles technologies à petite échelle et de manière informelle." :=
  ⟨rfl, rfl, rfl⟩

/-! ## Claim C6 -/

/-- The pairwise scheduling contract between consecutive chunks
`(now, start, duration)`: starts do not decrease, the next start is at least
the previous start plus its duration, and equals it exactly when the next
chunk arrives back-to-back. -/
def chunkRel (p q : ℚ × ℚ × ℚ) : Prop :=
  p.2.1 ≤ q.2.1 ∧ p.2.1 + p.2.2 ≤ q.2.1 ∧ (q.1 ≤ p.2.1 + p.2.2 → q.2.1 = p.2.1 + p.2.2)

/-- C6: for any sequence of decoded buffers with nonnegative durations arriving
in order, scheduling each at `max(currentTime, cursor)` and advancing the
cursor by its duration yields non-decreasing start times with no overlap, and
no artificial gap when chunks arrive back-to-back. -/
theorem audio_scheduling_monotone (cursor : ℚ) (chunks : List (ℚ × ℚ))
    (hdur : ∀ c ∈ chunks, 0 ≤ c.2) :
    List.Chain' chunkRel (scheduleTrace cursor chunks) := by
  induction chunks generalizing cursor with
  | nil => simp [scheduleTrace]
  | cons c rest ih =>
    obtain ⟨now, dur⟩ := c
    have hd : (0 : ℚ) ≤ dur := hdur (now, dur) (List.mem_cons_self _ _)
    have hrest : ∀ c ∈ rest, (0 : ℚ) ≤ c.2 := fun c hc => hdur c (List.mem_cons_of_mem _ hc)
    cases rest with
    | nil => simp [scheduleTrace]
    | cons c2 rest2 =>
      obtain ⟨n2, d2⟩ := c2
      simp only [scheduleTrace]
      rw [List.chain'_cons]
      constructor
      · refine ⟨?_, le_max_left _ _, fun h => max_eq_left h⟩
        calc max cursor now ≤ max cursor now + dur := le_add_of_nonneg_right hd
          _ ≤ max (max cursor now + dur) n2 := le_max_left _ _
      · have := ih (max cursor now + dur) hrest
        simpa [scheduleTrace] using this

/-- C6 witness: a concrete three-chunk arrival pattern. -/
theorem audio_scheduling_monotone_witness :
    (∀ c ∈ [((0 : ℚ), (1 : ℚ)), ((0 : ℚ), (2 : ℚ)), ((5 : ℚ), (1 : ℚ))], 0 ≤ c.2) ∧
      List.Chain' chunkRel
        (scheduleTrace 0 [((0 : ℚ), (1 : ℚ)), ((0 : ℚ), (2 : ℚ)), ((5 : ℚ), (1 : ℚ))]) :=
  ⟨by decide, audio_scheduling_monotone 0 _ (by decide)⟩

/-! ## Claim C8 -/

/-- C8 (counterexample): the part_002 submission pipeline, invoked with
`retryCount = 0` against a delivery that answers HTTP 500, issues two delivery
calls: the claim "at most one delivery call is issued, no automatic retry" is
false of that sourced variant. -/
theorem retry_delivery_counterexample :
    (submitToWebhookV2 (fun _ => FetchOutcome.httpError 500) 0 0).2 = 2 ∧
    ¬ ((submitToWebhookV2 (fun _ => FetchOutcome.httpError 500) 0 0).2 ≤ 1) := by
  have h : (submitToWebhookV2 (fun _ => FetchOutcome.httpError 500) 0 0).2 = 2 := by
    simp [submitToWebhookV2, FetchOutcome.isAbort]
  exact ⟨h, by simp [h]⟩

/-- C8 (amended): the current pipeline (part_003 `submitToWebhook`) issues
exactly one delivery call per invocation, never retrying; the superseded
part_002 variant retries at most once on a non-abort failure, so even it is
bounded by two delivery calls per invocation. -/
theorem single_delivery_amended :
    (∀ (rawData : AMap) (transcript : List (String × String)) (mapping : MappingOutcome)
        (outcome : FetchOutcome) (nowISO : String) (sessionId : Option String),
      (submitToWebhookV3 rawData transcript mapping outcome nowISO sessionId).2.2 = 1) ∧
    (∀ (outcomes : Nat → FetchOutcome) (attempt : Nat),
      (submitToWebhookV2 outcomes attempt 0).2 ≤ 2) := by
  constructor
  · intro _ _ _ _ _ _
    rfl
  · intro outcomes attempt
    have h1 : ∀ a r, 1 ≤ r → (submitToWebhookV2 outcomes a r).2 = 1 := by
      intro a r hr
      unfold submitToWebhookV2
      split
      · rfl
      · rw [if_neg]
        omega
    unfold submitToWebhookV2
    split
    · simp
    · split
      · simp [h1 (attempt + 1) 1 le_rfl]
      · simp

/-! ## Claim C7 -/

/-- The failure condition as the claim states it: the question id is not a
known question id, or no session is active (no current session id, or no
stored session under it). -/
def specRecordFails (currentId : Option String) (sessions : List Session)
    (args : RecordArgs) : Bool :=
  match currentId with
  | none => true
  | some cid =>
    (findIdxQ args.questionId QUESTIONS).isNone ||
      (sessions.find? (fun s => s.id = cid)).isNone

/-- A concrete session for witnesses. -/
def testSession : Session := ⟨"s1", 0, 0, emptyAMap, [], false, 0⟩

/-- C7: `record_answer` fails — answering with a short textual error and
leaving the session list untouched, and never triggering submission — exactly
when the question id is unknown or no session is active; in every other case
it writes the answer under the question's key, sets the pointer to the
answered index plus one, and reports the completion event exactly on the last
question. -/
theorem record_answer_error_contract (currentId : Option String)
    (sessions : List Session) (args : RecordArgs) :
    (isRecordError (handleRecordAnswer currentId sessions args).2.1 =
        specRecordFails currentId sessions args) ∧
    (specRecordFails currentId sessions args = true →
      (handleRecordAnswer currentId sessions args).1 = sessions ∧
      (handleRecordAnswer currentId sessions args).2.2 = false) ∧
    (∀ cid i s, currentId = some cid →
      findIdxQ args.questionId QUESTIONS = some i →
      sessions.find? (fun s => s.id = cid) = some s →
      handleRecordAnswer currentId sessions args =
        (sessions.map (fun s' => if s'.id = cid then recordUpd i args s.auditData s' else s'),
         if QUESTIONS.length ≤ i + 1 then "[EVENT: AUDIT_COMPLETED]"
         else "[EVENT: RECORD_SUCCESS]",
         decide (QUESTIONS.length ≤ i + 1))) := by
  refine ⟨?_, ?_, ?_⟩
  · cases hc : currentId with
    | none => rfl
    | some cid =>
      unfold specRecordFails
      cases hidx : findIdxQ args.questionId QUESTIONS with
      | none =>
        have := handleRecord_fail_eq (some cid) sessions args (Or.inr (Or.inl hidx))
        rw [this.2.2]
        simp [hidx]
      | some i =>
        cases hfind : sessions.find? (fun s => s.id = cid) with
        | none =>
          have := handleRecord_fail_eq (some cid) sessions args
            (Or.inr (Or.inr (fun c hc' => by cases hc'; exact hfind)))
          rw [this.2.2]
          simp [hidx, hfind]
        | some s =>
          rw [handleRecord_success_eq cid sessions args i s hidx hfind]
          simp only [hidx, hfind]
          by_cases h : QUESTIONS.length ≤ i + 1 <;> simp [h, isRecordError]
  · intro hfail
    cases hc : currentId with
    | none => exact (handleRecord_fail_eq none sessions args (Or.inl rfl)).imp id (fun h => h.1)
    | some cid =>
      rw [hc] at hfail
      unfold specRecordFails at hfail
      rcases Bool.or_eq_true_iff.mp hfail with h | h
      · exact (handleRecord_fail_eq (some cid) sessions args
          (Or.inr (Or.inl (Option.isNone_iff_eq_none.mp h)))).imp id (fun h => h.1)
      · refine (handleRecord_fail_eq (some cid) sessions args
          (Or.inr (Or.inr (fun c hc' => ?_)))).imp id (fun h => h.1)
        cases hc'
        exact Option.isNone_iff_eq_none.mp h
  · intro cid i s hc hidx hfind
    cases hc
    exact handleRecord_success_eq cid sessions args i s hidx hfind

/-- C7 witness: an unknown question id fails and leaves the single stored
session untouched. -/
theorem record_answer_error_contract_witness :
    specRecordFails (some "s1") [testSession] ⟨"zzz", none, none, none⟩ = true ∧
    (handleRecordAnswer (some "s1") [testSession] ⟨"zzz", none, none, none⟩).1 =
      [testSession] :=
  ⟨by decide,
    ((record_answer_error_contract (some "s1") [testSession]
      ⟨"zzz", none, none, none⟩).2.1 (by decide)).1⟩

/-! ## Claim C2 -/

/-- C2 (counterexample): answering q02 and then q01 on an active session moves
the pointer from 2 back to 1 — the pointer is set to the answered question's
index plus one, so it can decrease across `record_answer` calls. -/
theorem pointer_decreases_counterexample :
    stepOf (handleRecordAnswer (some "s1") [testSession]
        ⟨"q02", none, none, none⟩).1 "s1" = some 2 ∧
    stepOf (handleRecordAnswer (some "s1")
        (handleRecordAnswer (some "s1") [testSession] ⟨"q02", none, none, none⟩).1
        ⟨"q01", none, none, none⟩).1 "s1" = some 1 ∧
    ¬ (2 ≤ 1) :=
  ⟨rfl, rfl, by omega⟩

theorem runRecord_trace (cid : String) :
    ∀ (l : List RecordArgs) (idxs : List Nat) (sessions : List Session),
    l.map (fun a => findIdxQ a.questionId QUESTIONS) = idxs.map some →
    (sessions.find? (fun s => s.id = cid)).isSome = true →
    stepTrace (some cid) sessions l = idxs.map (fun i => some (i + 1)) ∧
    (runRecord (some cid) sessions l).2 = idxs.count (QUESTIONS.length - 1) ∧
    ((runRecord (some cid) sessions l).1.find? (fun s => s.id = cid)).map
        (fun s => s.isFinished) =
      (sessions.find? (fun s => s.id = cid)).map (fun s => s.isFinished) := by
  intro l
  induction l with
  | nil =>
    intro idxs sessions hres _
    cases idxs with
    | nil => exact ⟨rfl, rfl, rfl⟩
    | cons _ _ => cases hres
  | cons a rest ih =>
    intro idxs sessions hres hsess
    cases idxs with
    | nil => cases hres
    | cons i rest' =>
      simp only [List.map_cons] at hres
      have h1 : findIdxQ a.questionId QUESTIONS = some i := (List.cons.injEq _ _ _ _ ▸ hres).1
      have h2 : rest.map (fun a => findIdxQ a.questionId QUESTIONS) = rest'.map some :=
        (List.cons.injEq _ _ _ _ ▸ hres).2
      obtain ⟨s, hs⟩ := Option.isSome_iff_exists.mp hsess
      have heq := handleRecord_success_eq cid sessions a i s h1 hs
      have hfind' : (handleRecordAnswer (some cid) sessions a).1.find?
          (fun s => s.id = cid) = some (recordUpd i a s.auditData s) := by
        rw [heq]
        show (sessions.map (fun s' =>
            if s'.id = cid then recordUpd i a s.auditData s' else s')).find?
            (fun s => s.id = cid) = _
        rw [find?_map_update sessions cid (recordUpd i a s.auditData) (fun _ => rfl), hs]
        rfl
      have hlt : i < QUESTIONS.length := findIdxQ_lt_length h1
      have ihh := ih rest' (handleRecordAnswer (some cid) sessions a).1 h2
        (by rw [hfind']; rfl)
      refine ⟨?_, ?_, ?_⟩
      · simp only [stepTrace]
        rw [ihh.1]
        simp only [List.map_cons]
        congr 1
        unfold stepOf
        rw [hfind']
        rfl
      · simp only [runRecord]
        rw [ihh.2.1, heq]
        simp only [List.count_cons]
        have hq : QUESTIONS.length = 21 := rfl
        rw [hq] at hlt ⊢
        by_cases hi : i = 20
        · subst hi
          simp [List.count_cons]
          omega
        · have h21 : ¬ (21 ≤ i + 1) := by omega
          simp [List.count_cons, h21, hi]
      · simp only [runRecord]
        rw [ihh.2.2, hfind', hs]
        rfl

/-- C2 (amended): a successful `record_answer` for question index `i` sets the
pointer to `i + 1` (it is assigned, not advanced monotonically); therefore
along any call sequence whose answered question indices are non-decreasing the
pointer never decreases, and the completion path (submission +
`AUDIT_COMPLETED`) is triggered exactly as often as the last question (index
`N-1`) is answered — exactly once for an in-order run ending at the last
question.  `record_answer` itself never touches `isFinished`. -/
theorem pointer_set_by_question_index (cid : String) (sessions : List Session)
    (l : List RecordArgs) (idxs : List Nat)
    (hres : l.map (fun a => findIdxQ a.questionId QUESTIONS) = idxs.map some)
    (hsess : (sessions.find? (fun s => s.id = cid)).isSome = true) :
    stepTrace (some cid) sessions l = idxs.map (fun i => some (i + 1)) ∧
    (runRecord (some cid) sessions l).2 = idxs.count (QUESTIONS.length - 1) ∧
    ((runRecord (some cid) sessions l).1.find? (fun s => s.id = cid)).map
        (fun s => s.isFinished) =
      (sessions.find? (fun s => s.id = cid)).map (fun s => s.isFinished) ∧
    (∀ s0, stepOf sessions cid = some s0 →
      List.Chain' (· ≤ ·) (s0 :: idxs.map (· + 1)) →
      List.Chain' (· ≤ ·)
        (s0 :: (stepTrace (some cid) sessions l).map (fun o => o.getD 0))) := by
  have h := runRecord_trace cid l idxs sessions hres hsess
  refine ⟨h.1, h.2.1, h.2.2, ?_⟩
  intro s0 _ hchain
  rw [h.1]
  simpa [Function.comp] using hchain

/-- C2 witness: an in-order two-call run on a fresh session. -/
theorem pointer_set_by_question_index_witness :
    (([⟨"q01", none, none, none⟩, ⟨"q02", none, none, none⟩] : List RecordArgs).map
        (fun a => findIdxQ a.questionId QUESTIONS) = ([0, 1] : List Nat).map some) ∧
    stepTrace (some "s1") [testSession]
        [⟨"q01", none, none, none⟩, ⟨"q02", none, none, none⟩] =
      ([0, 1] : List Nat).map (fun i => some (i + 1)) :=
  ⟨by decide,
    (pointer_set_by_question_index "s1" [testSession]
      [⟨"q01", none, none, none⟩, ⟨"q02", none, none, none⟩] [0, 1]
      (by decide) (by decide)).1⟩

/-! ## Claim C5 -/

theorem notion_not_meta (q : Question) (hq : q ∈ QUESTIONS) :
    q.notionKey ≠ "session_id" ∧ q.notionKey ≠ "source" ∧
    q.notionKey ≠ "Date soumission" ∧ q.notionKey ≠ "'Date soumission'" ∧
    q.notionKey ≠ "executionMode" ∧ q.notionKey ≠ "Nom soumission" := by
  have hall : ∀ q' ∈ QUESTIONS, (!(q'.notionKey == "session_id") &&
      !(q'.notionKey == "source") && !(q'.notionKey == "Date soumission") &&
      !(q'.notionKey == "'Date soumission'") && !(q'.notionKey == "executionMode") &&
      !(q'.notionKey == "Nom soumission")) = true := by decide
  have h := hall q hq
  simp only [Bool.and_eq_true, Bool.not_eq_true', beq_eq_false_iff_ne] at h
  tauto

theorem attachNom_preserve (b6 : AMap) (k : String) (h6 : k ≠ "Nom soumission") :
    attachNom b6 k = b6 k := by
  unfold attachNom
  split
  · cases hb : b6 "e-mail répondant" with
    | none => simp [hb]
    | some v =>
      cases v with
      | vStr e =>
        simp only [hb]
        by_cases hc : '@' ∈ e.data
        · simp [hc, AMap.set, h6]
        · simp [hc]
      | vNull => simp [hb]
      | vNum n => simp [hb]
      | vBool bb => simp [hb]
      | vArr xs => simp [hb]
  · rfl

theorem attachMeta_preserve (b : AMap) (now : String) (sid : Option String) (k : String)
    (h1 : k ≠ "session_id") (h2 : k ≠ "source") (h3 : k ≠ "Date soumission")
    (h4 : k ≠ "'Date soumission'") (h5 : k ≠ "executionMode")
    (h6 : k ≠ "Nom soumission") :
    attachMeta b now sid k = b k := by
  unfold attachMeta
  rw [attachNom_preserve _ _ h6]
  simp [AMap.set, h1, h2, h3, h4, h5]

/-- C5: Stage B is deterministic — the payload entry at every schema key is a
function of the raw answers and the candidate alone: the transcript argument,
the submission clock and the session id do not influence it, so two runs on
identical inputs produce identical entries. -/
theorem stageB_determinism (rawData : AMap) (candidate : Option AMap)
    (t1 t2 : List (String × String)) (now1 now2 : String) (sid1 sid2 : Option String)
    (q : Question) (hq : q ∈ QUESTIONS) :
    buildGuaranteedPayload rawData t1 candidate now1 sid1 q.notionKey =
      buildGuaranteedPayload rawData t2 candidate now2 sid2 q.notionKey := by
  obtain ⟨h1, h2, h3, h4, h5, h6⟩ := notion_not_meta q hq
  unfold buildGuaranteedPayload
  rw [attachMeta_preserve _ _ _ _ h1 h2 h3 h4 h5 h6,
    attachMeta_preserve _ _ _ _ h1 h2 h3 h4 h5 h6]

/-- C5 witness: the q01 entry agrees across two runs with different
transcripts, submission times and session ids. -/
theorem stageB_determinism_witness :
    QUESTIONS.getD 0 default ∈ QUESTIONS ∧
    buildGuaranteedPayload emptyAMap [] none "2026-01-01T00:00:00.000Z" none
        (QUESTIONS.getD 0 default).notionKey =
      buildGuaranteedPayload emptyAMap [("User", "bonjour")] none
        "2027-12-31T23:59:59.000Z" (some "s9") (QUESTIONS.getD 0 default).notionKey :=
  ⟨by decide,
    stageB_determinism emptyAMap none [] [("User", "bonjour")]
      "2026-01-01T00:00:00.000Z" "2027-12-31T23:59:59.000Z" none (some "s9")
      (QUESTIONS.getD 0 default) (by decide)⟩

/-! ## Membership facts about the `ensure*` resolvers -/

theorem contains_mem {l : List String} {a : String} (h : l.contains a = true) : a ∈ l := by
  simpa using h

theorem getD_mem {l : List String} {i : Nat} (h : i < l.length) (d : String) :
    l.getD i d ∈ l := by
  rw [List.getD_eq_getElem?_getD, List.getElem?_eq_getElem h]
  exact List.getElem_mem h

theorem autreLabel_mem {q : Question} (h : hasAutre q = true) : autreLabel q ∈ q.options := by
  unfold hasAutre at h
  rcases Bool.and_eq_true_iff.mp h with ⟨-, h2⟩
  unfold autreLabel
  cases ht : triggerN q with
  | none =>
    rw [ht] at h2
    exact contains_mem h2
  | some t =>
    rw [ht] at h2
    exact contains_mem h2

theorem selLiteral_some {opts : List String} {v r : String}
    (h : selLiteral opts v = some r) : r = v ∧ r ∈ opts := by
  unfold selLiteral at h
  split at h
  · cases h
    exact ⟨rfl, contains_mem (by assumption)⟩
  · cases h

theorem selIndex_some {opts : List String} {v r : String}
    (h : selIndex opts v = some r) : r ∈ opts ∧ isDigitStr v = true := by
  unfold selIndex at h
  split at h
  · split at h
    · cases h
      rename_i hdig hrange
      refine ⟨getD_mem ?_ _, hdig⟩
      omega
    · cases h
  · cases h

theorem selNorm_some {opts : List String} {v r : String}
    (h : selNorm opts v = some r) : r ∈ opts ∧ tokensSel r = tokensSel v := by
  unfold selNorm at h
  have inv : ∀ (l : List String) (acc : Option String),
      (∀ x, acc = some x → x ∈ opts ∧ tokensSel x = tokensSel v) →
      (∀ x ∈ l, x ∈ opts) →
      ∀ x, l.foldl (fun acc o => if tokensSel o = tokensSel v then some o else acc) acc =
        some x → x ∈ opts ∧ tokensSel x = tokensSel v := by
    intro l
    induction l with
    | nil => intro acc hacc _ x hx; exact hacc x hx
    | cons o rest ih =>
      intro acc hacc hmem x hx
      simp only [List.foldl_cons] at hx
      refine ih _ ?_ (fun y hy => hmem y (List.mem_cons_of_mem _ hy)) x hx
      intro y hy
      split at hy
      · cases hy
        exact ⟨hmem o (List.mem_cons_self _ _), by assumption⟩
      · exact hacc y hy
  exact inv opts none (fun x hx => by cases hx) (fun x hx => hx) r h

theorem bestOf4_le (sc : Scores4) : bestOf4 sc ≤ 3 := by
  unfold bestOf4 bestOf2 bestOf1
  split <;> (try split) <;> (try split) <;> omega

theorem selHeuristic_some {q : Question} {v r : String}
    (h : selHeuristic q v = some r) : r ∈ q.options := by
  unfold selHeuristic at h
  split at h
  · split at h
    · cases h
      refine getD_mem ?_ _
      have h4 : 4 ≤ q.options.length := by
        rename_i hcond _
        rcases Bool.and_eq_true_iff.mp hcond with ⟨-, h2⟩
        exact of_decide_eq_true h2
      have := bestOf4_le (maturityScores q.notionKey (tokensSel v))
      omega
    · cases h
  · cases h

theorem fbOption_some {nk : String} {opts : List String} {r : String}
    (h : fbOption nk opts = some r) : r ∈ opts := by
  unfold fbOption at h
  split at h
  · split at h
    · cases h
      exact contains_mem (by assumption)
    · cases h
  · cases h

theorem bestJaccard_mem (toks : List String) (opts : List String) (h : opts ≠ []) :
    bestJaccard toks opts ∈ opts := by
  unfold bestJaccard
  have inv : ∀ (l : List String) (acc : String × (Int × Nat)), acc.1 ∈ opts →
      (∀ x ∈ l, x ∈ opts) →
      (l.foldl (fun acc o =>
        let sc := jaccardPair toks.dedup o
        if ratLt acc.2 sc then (o, sc) else acc) acc).1 ∈ opts := by
    intro l
    induction l with
    | nil => intro acc h1 _; exact h1
    | cons o rest ih =>
      intro acc h1 h2
      simp only [List.foldl_cons]
      by_cases hlt : ratLt acc.2 (jaccardPair toks.dedup o) = true
      · simp only [hlt, if_true]
        exact ih _ (h2 o (List.mem_cons_self _ _)) (fun y hy => h2 y (List.mem_cons_of_mem _ hy))
      · simp only [Bool.not_eq_true] at hlt
        simp only [hlt, Bool.false_eq_true, if_false]
        exact ih _ h1 (fun y hy => h2 y (List.mem_cons_of_mem _ hy))
  refine inv opts _ ?_ (fun x hx => hx)
  cases opts with
  | nil => exact absurd rfl h
  | cons o rest => exact List.mem_cons_self _ _

/-- Every value `ensureSelect` resolves is one of the question's options,
provided the option list is nonempty. -/
theorem ensureSelect_mem (q : Question) (value : Option JValue) (b : AMap)
    (h : q.options ≠ []) : (ensureSelect q value b).1 ∈ q.options := by
  unfold ensureSelect
  split
  · split
    · exact autreLabel_mem (by assumption)
    · cases hop : q.options with
      | nil => exact absurd hop h
      | cons o rest => simp [hop]
  · cases h1 : selLiteral q.options (jsTrim (jsToStringOrEmpty value)) with
    | some r =>
      simp only [h1]
      exact (selLiteral_some h1).2
    | none =>
      simp only [h1]
      cases h2 : selIndex q.options (jsTrim (jsToStringOrEmpty value)) with
      | some r =>
        simp only [h2]
        exact (selIndex_some h2).1
      | none =>
        simp only [h2]
        cases h3 : selNorm q.options (jsTrim (jsToStringOrEmpty value)) with
        | some r =>
          simp only [h3]
          exact (selNorm_some h3).1
        | none =>
          simp only [h3]
          cases h4 : selHeuristic q (jsTrim (jsToStringOrEmpty value)) with
          | some r =>
            simp only [h4]
            exact selHeuristic_some h4
          | none =>
            simp only [h4]
            split
            · cases hak : autreKeyN q with
              | none => exact autreLabel_mem (by assumption)
              | some ak => exact autreLabel_mem (by assumption)
            · cases h5 : fbOption q.notionKey q.options with
              | some fb =>
                simp only [h5]
                exact fbOption_some h5
              | none =>
                simp only [h5]
                exact bestJaccard_mem _ _ h

theorem pushUnique_subset {opts sel : List String} {v : String}
    (hsel : ∀ x ∈ sel, x ∈ opts) (hv : v ∈ opts) :
    ∀ x ∈ pushUnique sel v, x ∈ opts := by
  intro x hx
  unfold pushUnique at hx
  split at hx
  · rcases List.mem_append.mp hx with h | h
    · exact hsel x h
    · rw [List.mem_singleton.mp h]
      exact hv
  · exact hsel x hx

theorem tokenToOptionByIndex_some {opts : List String} {t r : String}
    (h : tokenToOptionByIndex opts t = some r) : r ∈ opts := by
  unfold tokenToOptionByIndex at h
  split at h
  · split at h
    · cases h
      rename_i hrange
      exact getD_mem (by omega) _
    · cases h
  · cases h

theorem step1Literal_subset {opts sel : List String} {t : String}
    (hsel : ∀ x ∈ sel, x ∈ opts) : ∀ x ∈ step1Literal opts sel t, x ∈ opts := by
  unfold step1Literal
  split
  · exact pushUnique_subset hsel (contains_mem (by assumption))
  · split
    · exact pushUnique_subset hsel (contains_mem (by assumption))
    · exact hsel

theorem multiStep1_subset (opts : List String) (toks : List String) :
    ∀ x ∈ multiStep1 opts toks, x ∈ opts := by
  unfold multiStep1
  have inv : ∀ (l : List String) (sel : List String), (∀ x ∈ sel, x ∈ opts) →
      ∀ x ∈ l.foldl (fun sel t =>
        match tokenToOptionByIndex opts t with
        | some byIdx => if byIdx ≠ "" then pushUnique sel byIdx else step1Literal opts sel t
        | none => step1Literal opts sel t) sel, x ∈ opts := by
    intro l
    induction l with
    | nil => intro sel hsel x hx; exact hsel x hx
    | cons t rest ih =>
      intro sel hsel x hx
      simp only [List.foldl_cons] at hx
      refine ih _ ?_ x hx
      cases hb : tokenToOptionByIndex opts t with
      | some byIdx =>
        simp only [hb]
        split
        · exact pushUnique_subset hsel (tokenToOptionByIndex_some hb)
        · exact step1Literal_subset hsel
      | none =>
        simp only [hb]
        exact step1Literal_subset hsel
  exact inv toks [] (fun x hx => by cases hx)

theorem applyAdds_length (adds : List (Nat × Nat)) :
    ∀ (l : List Nat), (applyAdds l adds).length = l.length := by
  unfold applyAdds
  induction adds with
  | nil => intro l; rfl
  | cons a rest ih =>
    intro l
    simp only [List.foldl_cons]
    rw [ih]
    unfold addAt
    split
    · simp
    · rfl

theorem rankedFor_subset_len (q : Question) (t : List String) (m : Nat) :
    (∀ x ∈ rankedFor q t m, x ∈ q.options) ∧ (rankedFor q t m).length ≤ m := by
  constructor
  · intro x hx
    unfold rankedFor at hx
    rcases List.mem_map.mp hx with ⟨p, hp, hpx⟩
    have hp1 : p ∈ ((applyAdds (List.replicate q.options.length 0)
        (rankedAdds q t)).enum.filter
        (fun p => 0 < p.2)).mergeSort (fun a b => b.2 ≤ a.2) := List.mem_of_mem_take hp
    rw [List.mem_mergeSort] at hp1
    have hp2 := List.mem_filter.mp hp1
    have hp3 : p.1 < (applyAdds (List.replicate q.options.length 0)
        (rankedAdds q t)).length := by
      have h4 := List.mem_enum_iff_getElem?.mp hp2.1
      have h5 := List.getElem?_eq_some.mp h4
      exact h5.1
    rw [applyAdds_length, List.length_replicate] at hp3
    rw [← hpx]
    exact getD_mem hp3 _
  · unfold rankedFor
    rw [List.length_map]
    exact List.length_take_le _ _

theorem hasAutre_opts_ne {q : Question} (h : hasAutre q = true) : q.options ≠ [] := by
  intro hnil
  have := autreLabel_mem h
  rw [hnil] at this
  cases this

theorem hasAutre_maxItems_pos {q : Question} (h : hasAutre q = true) :
    1 ≤ multiMaxItems q := by
  have hne := hasAutre_opts_ne h
  have hlen : 1 ≤ q.options.length := by
    cases hq : q.options with
    | nil => exact absurd hq hne
    | cons a l => simp
  unfold multiMaxItems
  cases q.maxItems with
  | none => exact hlen
  | some m =>
    by_cases hm : m = 0
    · simp [hm, hlen]
    · simp [hm]
      omega

theorem rankedStep_spec (q : Question) (value : Option JValue) (b : AMap) :
    (∀ x ∈ rankedStep q value b, x ∈ q.options) ∧
    (rankedStep q value b).length ≤ multiMaxItems q := by
  unfold rankedStep
  split
  · exact rankedFor_subset_len q _ _
  · simp

/-- `ensureMultiSelect` always returns a de-duplicated-or-ranked list of valid
option labels, bounded by the question's maximum item count, and nonempty
whenever the question has an "other" escape. -/
theorem ensureMultiSelect_spec (q : Question) (value : Option JValue) (b : AMap) :
    (∀ s ∈ (ensureMultiSelect q value b).1, s ∈ q.options) ∧
    (ensureMultiSelect q value b).1.length ≤ multiMaxItems q ∧
    (hasAutre q = true → (ensureMultiSelect q value b).1 ≠ []) := by
  unfold ensureMultiSelect
  split
  · rename_i hsel
    refine ⟨?_, ?_, ?_⟩
    · intro s hs
      exact multiStep1_subset _ _ s (List.mem_of_mem_take hs)
    · exact List.length_take_le _ _
    · intro hA
      rw [Ne, List.take_eq_nil_iff]
      push_neg
      exact ⟨by have := hasAutre_maxItems_pos hA; omega, hsel⟩
  · split
    · rename_i hrk
      refine ⟨(rankedStep_spec q value b).1, (rankedStep_spec q value b).2, fun _ => hrk⟩
    · split
      · rename_i hA
        cases hak : autreKeyN q with
        | some ak =>
          refine ⟨?_, ?_, ?_⟩
          · intro s hs
            rw [List.mem_singleton.mp hs]
            exact autreLabel_mem hA
          · simpa using hasAutre_maxItems_pos hA
          · intro _
            simp
        | none =>
          refine ⟨?_, ?_, ?_⟩
          · intro s hs
            rw [List.mem_singleton.mp hs]
            exact autreLabel_mem hA
          · simpa using hasAutre_maxItems_pos hA
          · intro _
            simp
      · rename_i hA
        refine ⟨fun s hs => absurd hs (List.not_mem_nil s), by simp, fun h => absurd h hA⟩

/-! ## Frame lemmas for the enforcement loop -/

theorem ensureSelect_preserve (q : Question) (value : Option JValue) (b : AMap)
    (k : String) (hk : autreKeyN q = some k → truthyO (b k) = true) :
    (ensureSelect q value b).2 k = b k := by
  unfold ensureSelect
  split
  · rfl
  · cases h1 : selLiteral q.options (jsTrim (jsToStringOrEmpty value)) with
    | some r => simp only [h1]
    | none =>
      simp only [h1]
      cases h2 : selIndex q.options (jsTrim (jsToStringOrEmpty value)) with
      | some r => simp only [h2]
      | none =>
        simp only [h2]
        cases h3 : selNorm q.options (jsTrim (jsToStringOrEmpty value)) with
        | some r => simp only [h3]
        | none =>
          simp only [h3]
          cases h4 : selHeuristic q (jsTrim (jsToStringOrEmpty value)) with
          | some r => simp only [h4]
          | none =>
            simp only [h4]
            split
            · cases hak : autreKeyN q with
              | none => rfl
              | some ak =>
                simp only []
                split
                · rfl
                · rename_i htr
                  by_cases hkk : k = ak
                  · subst hkk
                    exact absurd (hk hak) htr
                  · simp [AMap.set, hkk]
            · cases h5 : fbOption q.notionKey q.options with
              | some fb => simp only [h5]
              | none => simp only [h5]

theorem ensureMultiSelect_preserve (q : Question) (value : Option JValue) (b : AMap)
    (k : String) (hk : autreKeyN q = some k → truthyO (b k) = true) :
    (ensureMultiSelect q value b).2 k = b k := by
  unfold ensureMultiSelect
  split
  · rfl
  · split
    · rfl
    · split
      · cases hak : autreKeyN q with
        | none => rfl
        | some ak =>
          simp only []
          split
          · rfl
          · rename_i htr
            by_cases hkk : k = ak
            · subst hkk
              exact absurd (hk hak) htr
            · simp [AMap.set, hkk]
      · rfl

theorem enforceQuestion_preserve (b : AMap) (q : Question) (k : String)
    (hnk : k ≠ q.notionKey) (hak : autreKeyN q = some k → truthyO (b k) = true) :
    enforceQuestion b q k = b k := by
  unfold enforceQuestion
  cases hq : q.qtype
  case multiSelect =>
    simp only [AMap.set_lookup, if_neg hnk]
    exact ensureMultiSelect_preserve q _ b k hak
  case qbool => simp only [AMap.set_lookup, if_neg hnk]
  case select =>
    simp only [AMap.set_lookup, if_neg hnk]
    exact ensureSelect_preserve q _ b k hak
  case qstring =>
    split
    · simp only [AMap.set_lookup, if_neg hnk]
    · simp only [AMap.set_lookup, if_neg hnk]
    · rfl

/-- No question of `qs` writes to `k`: neither as its notion key nor through
its escape key. -/
def noClobber (qs : List Question) (k : String) : Bool :=
  qs.all (fun q => !(q.notionKey == k) && !(autreKeyN q == some k))

theorem foldl_enforce_preserve (k : String) :
    ∀ (qs : List Question) (b : AMap), noClobber qs k = true →
      (qs.foldl enforceQuestion b) k = b k := by
  intro qs
  induction qs with
  | nil => intro b _; rfl
  | cons q rest ih =>
    intro b h
    unfold noClobber at h
    rw [List.all_cons] at h
    rcases Bool.and_eq_true_iff.mp h with ⟨hq, hrest⟩
    rcases Bool.and_eq_true_iff.mp hq with ⟨h1, h2⟩
    have h1' : q.notionKey ≠ k := by simpa using h1
    have h2' : autreKeyN q ≠ some k := by simpa using h2
    simp only [List.foldl_cons]
    rw [ih (enforceQuestion b q) hrest]
    exact enforceQuestion_preserve b q k (Ne.symm h1') (fun hc => absurd hc h2')

/-- Processing order is benign: each question's notion key is written only by
its own enforcement pass (earlier and later questions never touch it). -/
def pairOK : List Question → Bool
  | [] => true
  | q :: rest =>
    noClobber rest q.notionKey &&
      rest.all (fun q' => !(q.notionKey == q'.notionKey) &&
        !(autreKeyN q == some q'.notionKey)) &&
      pairOK rest

theorem foldl_enforce_value (P : Question → Option JValue → Option JValue → Prop) :
    ∀ (qs : List Question) (b : AMap), pairOK qs = true →
      (∀ q ∈ qs, ∀ b' : AMap, P q (b' q.notionKey) (enforceQuestion b' q q.notionKey)) →
      ∀ q ∈ qs, P q (b q.notionKey) ((qs.foldl enforceQuestion b) q.notionKey) := by
  intro qs
  induction qs with
  | nil => intro b _ _ q hq; cases hq
  | cons qh rest ih =>
    intro b hOK hP q hq
    unfold pairOK at hOK
    rcases Bool.and_eq_true_iff.mp hOK with ⟨hOK1, hOKrest⟩
    rcases Bool.and_eq_true_iff.mp hOK1 with ⟨hnc, hdisj⟩
    rcases List.mem_cons.mp hq with rfl | hq'
    · simp only [List.foldl_cons]
      rw [foldl_enforce_preserve _ rest _ hnc]
      exact hP q (List.mem_cons_self _ _) b
    · simp only [List.foldl_cons]
      have hd := List.all_eq_true.mp hdisj q hq'
      rcases Bool.and_eq_true_iff.mp hd with ⟨hd1, hd2⟩
      have hd1' : qh.notionKey ≠ q.notionKey := by simpa using hd1
      have hd2' : autreKeyN qh ≠ some q.notionKey := by simpa using hd2
      have hb' : enforceQuestion b qh q.notionKey = b q.notionKey :=
        enforceQuestion_preserve b qh q.notionKey (Ne.symm hd1') (fun hc => absurd hc hd2')
      have := ih (enforceQuestion b qh) hOKrest
        (fun q'' hq'' b'' => hP q'' (List.mem_cons_of_mem _ hq'') b'') q hq'
      rw [hb'] at this
      exact this

/-! ## Per-entry value specification of the enforcement loop (claims C1, C4) -/

/-- The kind constraint each payload entry actually satisfies, as a function of
the merged (candidate-over-raw) input at the question's notion key.  The
free-text clause records the source behaviour exactly: absent or null input
becomes the empty string, any other input passes through verbatim. -/
def amendedEntrySpec (q : Question) (inp out : Option JValue) : Prop :=
  match q.qtype with
  | .select => ∃ s, out = some (.vStr s) ∧ s ∈ q.options
  | .multiSelect => ∃ ss : List String, out = some (.vArr (ss.map JValue.vStr)) ∧
      (∀ s ∈ ss, s ∈ q.options) ∧ ss.length ≤ multiMaxItems q
  | .qbool => ∃ bb, out = some (.vBool bb)
  | .qstring =>
    out = match inp with
      | none => some (.vStr "")
      | some .vNull => some (.vStr "")
      | some v => some v

/-- JS-side non-emptiness of a payload value. -/
def nonEmptyV : JValue → Bool
  | .vNull => false
  | .vStr s => !(s == "")
  | .vNum _ => true
  | .vBool _ => true
  | .vArr xs => !xs.isEmpty

def nonEmptyO : Option JValue → Bool
  | none => false
  | some v => nonEmptyV v

theorem enforceQuestion_strong (b : AMap) (q : Question)
    (hsel : q.qtype = QuestionType.select → q.options ≠ [] ∧ ∀ o ∈ q.options, o ≠ "")
    (hms : q.qtype = QuestionType.multiSelect → hasAutre q = true) :
    amendedEntrySpec q (b q.notionKey) (enforceQuestion b q q.notionKey) ∧
    (nonEmptyO (b q.notionKey) = true →
      nonEmptyO (enforceQuestion b q q.notionKey) = true) := by
  cases hq : q.qtype
  case select =>
    obtain ⟨hne, hall⟩ := hsel hq
    have hmem := ensureSelect_mem q (b q.notionKey) b hne
    constructor
    · simp only [amendedEntrySpec, enforceQuestion, hq]
      exact ⟨(ensureSelect q (b q.notionKey) b).1, by simp [AMap.set_lookup], hmem⟩
    · intro _
      have hs := hall _ hmem
      simp [enforceQuestion, hq, AMap.set_lookup, nonEmptyO, nonEmptyV, hs]
  case multiSelect =>
    have hspec := ensureMultiSelect_spec q (b q.notionKey) b
    constructor
    · simp only [amendedEntrySpec, enforceQuestion, hq]
      exact ⟨(ensureMultiSelect q (b q.notionKey) b).1, by simp [AMap.set_lookup],
        hspec.1, hspec.2.1⟩
    · intro _
      have hne := hspec.2.2 (hms hq)
      simp [enforceQuestion, hq, AMap.set_lookup, nonEmptyO, nonEmptyV,
        List.isEmpty_eq_false, hne]
  case qbool =>
    constructor
    · simp only [amendedEntrySpec, enforceQuestion, hq]
      exact ⟨ensureBool (b q.notionKey), by simp [AMap.set_lookup]⟩
    · intro _
      simp [enforceQuestion, hq, AMap.set_lookup, nonEmptyO, nonEmptyV]
  case qstring =>
    cases hcur : b q.notionKey with
    | none =>
      constructor
      · simp [amendedEntrySpec, enforceQuestion, hq, hcur, AMap.set_lookup]
      · intro h
        simp [nonEmptyO] at h
    | some v =>
      cases v with
      | vNull =>
        constructor
        · simp [amendedEntrySpec, enforceQuestion, hq, hcur, AMap.set_lookup]
        · intro h
          simp [nonEmptyO, nonEmptyV] at h
      | vStr s =>
        refine ⟨?_, fun h => ?_⟩
        · simp [amendedEntrySpec, enforceQuestion, hq, hcur]
        · simp only [enforceQuestion, hq, hcur]
          simpa using h
      | vNum n =>
        refine ⟨?_, fun h => ?_⟩
        · simp [amendedEntrySpec, enforceQuestion, hq, hcur]
        · simp only [enforceQuestion, hq, hcur]
          simpa using h
      | vBool bb =>
        refine ⟨?_, fun h => ?_⟩
        · simp [amendedEntrySpec, enforceQuestion, hq, hcur]
        · simp only [enforceQuestion, hq, hcur]
          simpa using h
      | vArr xs =>
        refine ⟨?_, fun h => ?_⟩
        · simp [amendedEntrySpec, enforceQuestion, hq, hcur]
        · simp only [enforceQuestion, hq, hcur]
          simpa using h

/-- The catalogue is well-formed for the enforcement loop: every select
question has a nonempty list of nonempty option labels, and every multi-select
question carries an "other" escape. -/
theorem questions_wf : ∀ q ∈ QUESTIONS,
    (q.qtype = QuestionType.select → q.options ≠ [] ∧ ∀ o ∈ q.options, o ≠ "") ∧
    (q.qtype = QuestionType.multiSelect → hasAutre q = true) := by decide

theorem questions_pairOK : pairOK QUESTIONS = true := by decide

/-- Every schema entry of the payload satisfies `amendedEntrySpec`, and is
non-empty whenever the merged input at its notion key is. -/
theorem payload_entry_strong (rawData : AMap) (transcript : List (String × String))
    (candidate : Option AMap) (nowISO : String) (sessionId : Option String)
    (q : Question) (hq : q ∈ QUESTIONS) :
    amendedEntrySpec q (mergeBase rawData candidate q.notionKey)
      (buildGuaranteedPayload rawData transcript candidate nowISO sessionId q.notionKey) ∧
    (nonEmptyO (mergeBase rawData candidate q.notionKey) = true →
      nonEmptyO (buildGuaranteedPayload rawData transcript candidate nowISO sessionId
        q.notionKey) = true) := by
  obtain ⟨h1, h2, h3, h4, h5, h6⟩ := notion_not_meta q hq
  unfold buildGuaranteedPayload
  rw [attachMeta_preserve _ _ _ _ h1 h2 h3 h4 h5 h6]
  refine foldl_enforce_value
    (fun q' inp out => amendedEntrySpec q' inp out ∧
      (nonEmptyO inp = true → nonEmptyO out = true))
    QUESTIONS (mergeBase rawData candidate) questions_pairOK ?_ q hq
  intro q' hq' b'
  exact enforceQuestion_strong b' q' (questions_wf q' hq').1 (questions_wf q' hq').2

/-! ## Claim C1 -/

/-- C1 counterexample: the free-text entry `e-mail répondant` accepts a
non-string candidate value verbatim, so the payload holds a number where the
claim promises a string. -/
theorem schema_closure_counterexample :
    (QUESTIONS.getD 19 default).qtype = QuestionType.qstring ∧
    (QUESTIONS.getD 19 default).notionKey = "e-mail répondant" ∧
    buildGuaranteedPayload emptyAMap []
      (some (listAMap [("e-mail répondant", JValue.vNum 42)])) "2025-01-01" none
      "e-mail répondant" = some (JValue.vNum 42) ∧
    ∀ s : String, JValue.vNum 42 ≠ JValue.vStr s :=
  ⟨rfl, rfl, rfl, fun _ h => JValue.noConfusion h⟩

/-- C1 (amended): every schema entry of `buildGuaranteedPayload` satisfies its
kind constraint — a select entry is one of the question's allowed labels; a
multi-select entry is a list of allowed labels no longer than the question's
maximum item count; a boolean entry is strictly true or false; a free-text
entry equals the merged candidate-over-raw input, with absent or null input
replaced by the empty string (so it is a string whenever the inputs are, but a
non-string candidate value passes through verbatim). -/
theorem schema_closure (rawData : AMap) (transcript : List (String × String))
    (candidate : Option AMap) (nowISO : String) (sessionId : Option String)
    (q : Question) (hq : q ∈ QUESTIONS) :
    amendedEntrySpec q (mergeBase rawData candidate q.notionKey)
      (buildGuaranteedPayload rawData transcript candidate nowISO sessionId
        q.notionKey) :=
  (payload_entry_strong rawData transcript candidate nowISO sessionId q hq).1

/-- C1 witness: the q01 entry of a concrete payload satisfies its kind
constraint. -/
theorem schema_closure_witness :
    amendedEntrySpec (QUESTIONS.getD 0 default)
      (mergeBase emptyAMap none (QUESTIONS.getD 0 default).notionKey)
      (buildGuaranteedPayload emptyAMap [] none "2025-01-01" none
        (QUESTIONS.getD 0 default).notionKey) :=
  schema_closure emptyAMap [] none "2025-01-01" none (QUESTIONS.getD 0 default)
    (by decide)

/-! ## Claim C4 -/

/-- Schema validity of a payload entry, kind by kind; the free-text kind asks
for a string, as the spec's "free text" reads. -/
def kindValid (q : Question) (out : Option JValue) : Prop :=
  match q.qtype with
  | .select => ∃ s, out = some (.vStr s) ∧ s ∈ q.options
  | .multiSelect => ∃ ss : List String, out = some (.vArr (ss.map JValue.vStr)) ∧
      (∀ s ∈ ss, s ∈ q.options) ∧ ss.length ≤ multiMaxItems q
  | .qbool => ∃ bb, out = some (.vBool bb)
  | .qstring => ∃ s, out = some (.vStr s)

/-- C4: a failed semantic-mapping call is never propagated: on the `fail`
outcome `normalizeAuditData` returns exactly the candidate-free Stage-B
payload, every schema entry of which is schema-valid and non-empty whenever
its raw input is non-empty.  The select, multi-select and boolean entries are
schema-valid unconditionally; only when the entry under consideration is
free-text must its own raw input be absent, null or a string (the recorder
stores the tool-call `value` verbatim there, so a hostile caller could place a
non-string). -/
theorem fallback_independence (rawData : AMap) (transcript : List (String × String))
    (nowISO : String) (sessionId : Option String) (q : Question) (hq : q ∈ QUESTIONS)
    (hstr : q.qtype = QuestionType.qstring →
      rawData q.notionKey = none ∨ rawData q.notionKey = some JValue.vNull ∨
      ∃ s, rawData q.notionKey = some (JValue.vStr s)) :
    normalizeAuditData transcript rawData MappingOutcome.fail nowISO sessionId =
      buildGuaranteedPayload rawData transcript none nowISO sessionId ∧
    kindValid q (normalizeAuditData transcript rawData MappingOutcome.fail nowISO
      sessionId q.notionKey) ∧
    (nonEmptyO (rawData q.notionKey) = true →
      nonEmptyO (normalizeAuditData transcript rawData MappingOutcome.fail nowISO
        sessionId q.notionKey) = true) := by
  have hs := payload_entry_strong rawData transcript none nowISO sessionId q hq
  have hmerge : mergeBase rawData none q.notionKey = rawData q.notionKey := rfl
  refine ⟨rfl, ?_, fun hne => hs.2 hne⟩
  have h1 := hs.1
  show kindValid q (buildGuaranteedPayload rawData transcript none nowISO sessionId
    q.notionKey)
  cases hq2 : q.qtype
  case select =>
    simp only [amendedEntrySpec, hq2] at h1
    simp only [kindValid, hq2]
    exact h1
  case multiSelect =>
    simp only [amendedEntrySpec, hq2] at h1
    simp only [kindValid, hq2]
    exact h1
  case qbool =>
    simp only [amendedEntrySpec, hq2] at h1
    simp only [kindValid, hq2]
    exact h1
  case qstring =>
    simp only [amendedEntrySpec, hq2] at h1
    simp only [kindValid, hq2]
    rw [hmerge] at h1
    rcases hstr hq2 with hr | hr | ⟨s, hr⟩
    · rw [hr] at h1
      exact ⟨"", by simpa using h1⟩
    · rw [hr] at h1
      exact ⟨"", by simpa using h1⟩
    · rw [hr] at h1
      exact ⟨s, by simpa using h1⟩

/-- C4 witness: a concrete failed-mapping run, at the free-text e-mail entry
with a non-empty raw string, so the free-text side condition and the
non-emptiness implication both fire non-vacuously. -/
theorem fallback_independence_witness :
    normalizeAuditData [] (listAMap [("e-mail répondant", JValue.vStr "ana@exemple.fr")])
        MappingOutcome.fail "2025-01-01" none =
      buildGuaranteedPayload (listAMap [("e-mail répondant", JValue.vStr "ana@exemple.fr")])
        [] none "2025-01-01" none ∧
    kindValid (QUESTIONS.getD 19 default)
      (normalizeAuditData [] (listAMap [("e-mail répondant", JValue.vStr "ana@exemple.fr")])
        MappingOutcome.fail "2025-01-01" none (QUESTIONS.getD 19 default).notionKey) ∧
    (nonEmptyO (listAMap [("e-mail répondant", JValue.vStr "ana@exemple.fr")]
        (QUESTIONS.getD 19 default).notionKey) = true →
      nonEmptyO (normalizeAuditData []
        (listAMap [("e-mail répondant", JValue.vStr "ana@exemple.fr")])
        MappingOutcome.fail "2025-01-01" none
        (QUESTIONS.getD 19 default).notionKey) = true) :=
  fallback_independence (listAMap [("e-mail répondant", JValue.vStr "ana@exemple.fr")])
    [] "2025-01-01" none (QUESTIONS.getD 19 default) (by decide)
    (fun _ => Or.inr (Or.inr ⟨"ana@exemple.fr", rfl⟩))

/-! ## Claim C10 -/

/-- The enforcement fold never touches a key that is no question's notion key,
provided that whenever the key is some question's escape key its running value
is truthy (the escape write is guarded by `!base[autreKey]`). -/
theorem foldl_enforce_passthrough (k : String) :
    ∀ (qs : List Question) (b : AMap),
      (∀ q ∈ qs, k ≠ q.notionKey) →
      (∀ q ∈ qs, autreKeyN q = some k → truthyO (b k) = true) →
      (qs.foldl enforceQuestion b) k = b k := by
  intro qs
  induction qs with
  | nil => intro b _ _; rfl
  | cons q rest ih =>
    intro b hnk hak
    have hstep : enforceQuestion b q k = b k :=
      enforceQuestion_preserve b q k (hnk q (List.mem_cons_self _ _))
        (hak q (List.mem_cons_self _ _))
    simp only [List.foldl_cons]
    rw [ih (enforceQuestion b q)
      (fun q' hq' => hnk q' (List.mem_cons_of_mem _ hq'))
      (fun q' hq' ha => by rw [hstep]; exact hak q' (List.mem_cons_of_mem _ hq') ha),
      hstep]

/-- C10 counterexample: the candidate key `Statut Répondant – Autre` is no
question's notion key and none of the metadata keys, yet its (falsy) candidate
value is overwritten by the escape fallback of the `Statut Répondant -
Position` question, so it does not pass through unchanged. -/
theorem passthrough_counterexample :
    (∀ q ∈ QUESTIONS, "Statut Répondant – Autre" ≠ q.notionKey) ∧
    ("Statut Répondant – Autre" ∉
      ["session_id", "source", "Date soumission", "'Date soumission'",
        "executionMode", "Nom soumission"]) ∧
    listAMap [("Statut Répondant - Position", JValue.vStr "xyz"),
        ("Statut Répondant – Autre", JValue.vStr "")] "Statut Répondant – Autre" =
      some (JValue.vStr "") ∧
    buildGuaranteedPayload emptyAMap []
      (some (listAMap [("Statut Répondant - Position", JValue.vStr "xyz"),
        ("Statut Répondant – Autre", JValue.vStr "")])) "2025-01-01" none
      "Statut Répondant – Autre" = some (JValue.vStr "xyz") ∧
    JValue.vStr "xyz" ≠ JValue.vStr "" := by
  refine ⟨by decide, by decide, rfl, rfl, ?_⟩
  intro h
  injection h with h2
  exact absurd h2 (by decide)

/-- C10 (amended): candidate keys outside the schema pass through unvalidated —
except that a key serving as some question's "other" escape key is protected
only when its merged value is truthy, the escape fallback being guarded by
`!base[autreKey]`.  For a key that is no question's notion key, none of the six
metadata keys, and whose candidate value is truthy whenever the key is some
question's escape key, the payload returns the candidate's value unchanged;
and at every key a candidate-supplied value replaces the raw collected answer
in the merged base that feeds validation. -/
theorem candidate_passthrough (rawData : AMap) (transcript : List (String × String))
    (c : AMap) (nowISO : String) (sessionId : Option String) (k : String) (v : JValue)
    (hck : c k = some v)
    (hnk : ∀ q ∈ QUESTIONS, k ≠ q.notionKey)
    (hm1 : k ≠ "session_id") (hm2 : k ≠ "source") (hm3 : k ≠ "Date soumission")
    (hm4 : k ≠ "'Date soumission'") (hm5 : k ≠ "executionMode")
    (hm6 : k ≠ "Nom soumission")
    (hak : ∀ q ∈ QUESTIONS, autreKeyN q = some k → truthyV v = true) :
    buildGuaranteedPayload rawData transcript (some c) nowISO sessionId k = some v ∧
    ∀ k' v', c k' = some v' → mergeBase rawData (some c) k' = some v' := by
  have hmb : mergeBase rawData (some c) k = some v := by
    simp [mergeBase, hck]
  constructor
  · unfold buildGuaranteedPayload
    rw [attachMeta_preserve _ _ _ _ hm1 hm2 hm3 hm4 hm5 hm6]
    rw [foldl_enforce_passthrough k QUESTIONS _ hnk
      (fun q hq ha => by rw [hmb]; exact hak q hq ha)]
    exact hmb
  · intro k' v' h
    simp [mergeBase, h]

/-- C10 witness: an unrelated candidate key survives into the payload. -/
theorem candidate_passthrough_witness :
    buildGuaranteedPayload emptyAMap []
      (some (listAMap [("extra", JValue.vStr "hello")])) "2025-01-01" none "extra" =
      some (JValue.vStr "hello") ∧
    ∀ k' v', listAMap [("extra", JValue.vStr "hello")] k' = some v' →
      mergeBase emptyAMap (some (listAMap [("extra", JValue.vStr "hello")])) k' =
        some v' :=
  candidate_passthrough emptyAMap [] (listAMap [("extra", JValue.vStr "hello")])
    "2025-01-01" none "extra" (JValue.vStr "hello") rfl (by decide) (by decide)
    (by decide) (by decide) (by decide) (by decide) (by decide) (by decide)

/-! ## Claim C3 -/

/-- The first word of a keyword alternative starts with a plain lowercase
letter (true of every keyword bucket of step 4). -/
def firstIsLower (w : String) : Bool :=
  match w.data with
  | [] => false
  | c :: _ => isLowerC c

def altOK (ws : List String) : Bool :=
  match ws with
  | [] => false
  | w :: _ => firstIsLower w

theorem lower_digit_ne {w t : String} (hw : firstIsLower w = true)
    (ht : isDigitStr t = true) : (w == t) = false := by
  rw [beq_eq_false_iff_ne]
  intro he
  subst he
  unfold isDigitStr at ht
  rcases hB : w.data with _ | ⟨c, cs⟩
  · simp [firstIsLower, hB] at hw
  · simp only [firstIsLower, hB] at hw
    rw [hB] at ht
    simp only [Bool.and_eq_true, List.all_cons] at ht
    have hdc : isDigitC c = true := ht.2.1
    simp only [isLowerC, Bool.and_eq_true, decide_eq_true_eq] at hw
    simp only [isDigitC, Bool.and_eq_true, decide_eq_true_eq] at hdc
    have : ('a' : Char) ≤ '9' := le_trans hw.1 hdc.2
    exact absurd this (by decide)

theorem seqWithin_digit {ws : List String} {t : String} (hA : altOK ws = true)
    (ht : isDigitStr t = true) : seqWithin ws [t] = false := by
  rcases ws with _ | ⟨w, ws'⟩
  · simp [altOK] at hA
  · have hne : (w == t) = false :=
      lower_digit_ne (by simpa only [altOK] using hA) ht
    simp [seqWithin, startsWithSeq, hne]

theorem reTest_digit {alts : List (List String)} {t : String}
    (hA : alts.all altOK = true) (ht : isDigitStr t = true) :
    reTest alts [t] = false := by
  unfold reTest
  simp only [List.any_eq_false]
  intro ws hws
  simp [seqWithin_digit (List.all_eq_true.mp hA ws hws) ht]

theorem reTest_nil {alts : List (List String)} (hA : alts.all altOK = true) :
    reTest alts [] = false := by
  unfold reTest
  simp only [List.any_eq_false]
  intro ws hws
  have h := List.all_eq_true.mp hA ws hws
  rcases ws with _ | ⟨w, ws'⟩
  · simp [altOK] at h
  · simp [seqWithin, startsWithSeq]

theorem scores_s2_nil (nk : String) : (maturityScores nk ([] : List String)).s2 = 0 := by
  have h1 : reTest kwDeploiement [] = false := reTest_nil (by decide)
  have h2 : reTest kwStructure [] = false := reTest_nil (by decide)
  have h3 : reTest kwDataPlateforme [] = false := reTest_nil (by decide)
  cases hd : nkHasDonnees nk <;> simp [maturityScores, h1, h2, h3, hd]

theorem scores_s2_digit (nk : String) {t : String} (ht : isDigitStr t = true) :
    (maturityScores nk [t]).s2 = 0 := by
  have h1 : reTest kwDeploiement [t] = false := reTest_digit (by decide) ht
  have h2 : reTest kwStructure [t] = false := reTest_digit (by decide) ht
  have h3 : reTest kwDataPlateforme [t] = false := reTest_digit (by decide) ht
  cases hd : nkHasDonnees nk <;> simp [maturityScores, h1, h2, h3, hd]

theorem tokenizeAux_digits :
    ∀ (l : List Char) (cur : List Char), l.all isDigitC = true →
      tokenizeAux cur l =
        if (cur.reverse ++ l).isEmpty then [] else [String.mk (cur.reverse ++ l)] := by
  intro l
  induction l with
  | nil =>
    intro cur _
    by_cases hc : cur = []
    · subst hc; simp [tokenizeAux]
    · have h1 : cur.isEmpty = false := by simpa [List.isEmpty_iff] using hc
      have h2 : (cur.reverse ++ []).isEmpty = false := by
        simp [List.isEmpty_iff, hc]
      simp [tokenizeAux, h1, h2, hc]
  | cons c rest ih =>
    intro cur hall
    simp only [List.all_cons, Bool.and_eq_true] at hall
    have hn : normChar c = some c := by
      unfold normChar
      rw [if_pos]
      rw [hall.1]
      simp
    simp only [tokenizeAux, hn]
    rw [ih (c :: cur) hall.2]
    simp

theorem tokensSel_digits {t : String} (h : isDigitStr t = true) :
    tokensSel t = [t] := by
  unfold isDigitStr at h
  simp only [Bool.and_eq_true, Bool.not_eq_true'] at h
  have hne : t.data ≠ [] := by
    intro he
    rw [he] at h
    simp at h
  have := tokenizeAux_digits t.data [] h.2
  unfold tokensSel tokenize
  rw [this]
  have hE : (List.reverse [] ++ t.data).isEmpty = false := by
    simp [List.isEmpty_iff, hne]
  rw [hE]
  simp only [List.reverse_nil, List.nil_append, if_false]
  cases t
  rfl

theorem bestOf4_pos {sc : Scores4} (h0 : sc.s0 = 0) (h2 : 0 < sc.s2) :
    1 ≤ bestOf4 sc := by
  have g0 : sc.get 0 = sc.s0 := rfl
  have g1 : sc.get 1 = sc.s1 := rfl
  have g2 : sc.get 2 = sc.s2 := rfl
  have g3 : sc.get 3 = sc.s3 := rfl
  unfold bestOf4 bestOf2 bestOf1
  split_ifs <;> simp only [g0, g1, g2, g3] at * <;> omega

/-- On a question reaching the step-4 heuristics, an input whose deployment
bucket scores positively while its exploration/no-strategy bucket scores zero
never resolves to the first option. -/
theorem ensureSelect_not_first (q : Question) (value : Option JValue) (b : AMap)
    (hcond : (qidIsQ01toQ05 q.id || nkIsMaturite q.notionKey) = true)
    (hlen : 4 ≤ q.options.length)
    (hopt0 : (maturityScores q.notionKey (tokensSel (q.options.getD 0 ""))).s2 = 0)
    (hd1 : q.options.getD 1 "" ≠ q.options.getD 0 "")
    (hd2 : q.options.getD 2 "" ≠ q.options.getD 0 "")
    (hd3 : q.options.getD 3 "" ≠ q.options.getD 0 "")
    (hs2 : 0 < (maturityScores q.notionKey
      (tokensSel (jsTrim (jsToStringOrEmpty value)))).s2)
    (hs0 : (maturityScores q.notionKey
      (tokensSel (jsTrim (jsToStringOrEmpty value)))).s0 = 0) :
    (ensureSelect q value b).1 ≠ q.options.getD 0 "" := by
  have hemp : ¬ jsTrim (jsToStringOrEmpty value) = "" := by
    intro he
    rw [he] at hs2
    have := scores_s2_nil q.notionKey
    rw [show tokensSel "" = ([] : List String) from rfl] at hs2
    omega
  have hmx : 0 < maxScore4 (maturityScores q.notionKey
      (tokensSel (jsTrim (jsToStringOrEmpty value)))) := by
    unfold maxScore4
    omega
  have hheu : selHeuristic q (jsTrim (jsToStringOrEmpty value)) =
      some (q.options.getD (bestOf4 (maturityScores q.notionKey
        (tokensSel (jsTrim (jsToStringOrEmpty value))))) "") := by
    unfold selHeuristic
    have hc : ((qidIsQ01toQ05 q.id || nkIsMaturite q.notionKey) &&
        decide (4 ≤ q.options.length)) = true := by
      rw [hcond]
      simp [hlen]
    rw [if_pos hc, if_pos hmx]
  unfold ensureSelect
  rw [if_neg hemp]
  cases h1 : selLiteral q.options (jsTrim (jsToStringOrEmpty value)) with
  | some r =>
    simp only [h1]
    obtain ⟨hrv, _⟩ := selLiteral_some h1
    intro he
    have hvr : jsTrim (jsToStringOrEmpty value) = q.options.getD 0 "" := by
      rw [← hrv, he]
    rw [hvr] at hs2
    omega
  | none =>
  cases h2 : selIndex q.options (jsTrim (jsToStringOrEmpty value)) with
  | some r =>
    exfalso
    have hdig := (selIndex_some h2).2
    rw [tokensSel_digits hdig] at hs2
    have := scores_s2_digit q.notionKey hdig
    omega
  | none =>
  cases h3 : selNorm q.options (jsTrim (jsToStringOrEmpty value)) with
  | some r =>
    simp only [h3]
    obtain ⟨_, hrtok⟩ := selNorm_some h3
    intro he
    rw [he] at hrtok
    rw [← hrtok] at hs2
    omega
  | none =>
  simp only [h1, h2, h3, hheu]
  have h14 := bestOf4_pos hs0 hs2
  have h4le := bestOf4_le (maturityScores q.notionKey
    (tokensSel (jsTrim (jsToStringOrEmpty value))))
  have hcases : bestOf4 (maturityScores q.notionKey
      (tokensSel (jsTrim (jsToStringOrEmpty value)))) = 1 ∨
    bestOf4 (maturityScores q.notionKey
      (tokensSel (jsTrim (jsToStringOrEmpty value)))) = 2 ∨
    bestOf4 (maturityScores q.notionKey
      (tokensSel (jsTrim (jsToStringOrEmpty value)))) = 3 := by omega
  rcases hcases with h | h | h <;> rw [h] <;> assumption

/-- C3 counterexample: on q01 (no "other" escape) the input
"pas de strategie en cours" contains the deployment keyword `en cours`, yet
`ensureSelect` resolves it to the first (no-maturity) option — the
co-occurring no-strategy keywords outscore the deployment bucket. -/
theorem maturity_guard_counterexample :
    (QUESTIONS.getD 0 default).id = "q01" ∧
    (QUESTIONS.getD 0 default).autreKey = none ∧
    reTest kwDeploiement
      (tokensSel (jsTrim (jsToStringOrEmpty
        (some (JValue.vStr "pas de strategie en cours"))))) = true ∧
    (ensureSelect (QUESTIONS.getD 0 default)
        (some (JValue.vStr "pas de strategie en cours")) emptyAMap).1 =
      (QUESTIONS.getD 0 default).options.getD 0 "" :=
  ⟨rfl, rfl, rfl, rfl⟩

/-- C3 (amended): for the five maturity questions, an input whose
deployment/maturity bucket scores positively while its exploration/no-strategy
bucket scores zero never resolves to the question's first (lowest/no-maturity)
option. -/
theorem maturity_guard (q : Question) (hq : q ∈ QUESTIONS.take 5)
    (value : Option JValue) (b : AMap)
    (hs2 : 0 < (maturityScores q.notionKey
      (tokensSel (jsTrim (jsToStringOrEmpty value)))).s2)
    (hs0 : (maturityScores q.notionKey
      (tokensSel (jsTrim (jsToStringOrEmpty value)))).s0 = 0) :
    (ensureSelect q value b).1 ≠ q.options.getD 0 "" := by
  have hside : ∀ q' ∈ QUESTIONS.take 5,
      ((qidIsQ01toQ05 q'.id || nkIsMaturite q'.notionKey) = true) ∧
      4 ≤ q'.options.length ∧
      (maturityScores q'.notionKey (tokensSel (q'.options.getD 0 ""))).s2 = 0 ∧
      q'.options.getD 1 "" ≠ q'.options.getD 0 "" ∧
      q'.options.getD 2 "" ≠ q'.options.getD 0 "" ∧
      q'.options.getD 3 "" ≠ q'.options.getD 0 "" := by decide
  obtain ⟨h1, h2, h3, h4, h5, h6⟩ := hside q hq
  exact ensureSelect_not_first q value b h1 h2 h3 h4 h5 h6 hs2 hs0

/-- C3 witness: on q01 the phrase "en cours de mise en œuvre" carries a
deployment keyword, no exploration/no-strategy keyword, and resolves away from
the first option. -/
theorem maturity_guard_witness :
    0 < (maturityScores (QUESTIONS.getD 0 default).notionKey
      (tokensSel (jsTrim (jsToStringOrEmpty
        (some (JValue.vStr "en cours de mise en œuvre")))))).s2 ∧
    (ensureSelect (QUESTIONS.getD 0 default)
        (some (JValue.vStr "en cours de mise en œuvre")) emptyAMap).1 ≠
      (QUESTIONS.getD 0 default).options.getD 0 "" :=
  ⟨by decide, maturity_guard (QUESTIONS.getD 0 default) (by decide)
    (some (JValue.vStr "en cours de mise en œuvre")) emptyAMap
    (by decide) (by decide)⟩

end Amai
